import Mathlib

/-!
# Ray traced "Hello World" (`hello_world.cpp`): camera rays, shading, scene markers, frame loop

A shallow embedding of the CPU pipeline of `RayTracingEngine`:
`generateHelloWorldGeometry`, `addLetter_*`, `addBox`, `generateRay`, `traceRay`,
`renderFrame` and the vector helpers.

## Number model

A C `float` is a number of an ordered field `F`, or NaN.  Every arithmetic operation returns
the rounding `Rounding.rnd` of its exact result, every literal and every conversion of an
integer is rounded, and the functions of `<cmath>` that the program calls are taken from a
record `CMath F`.  Two readings are instantiated:

* the reals, with the identity as rounding and the real `sqrt`, `tan`, `cos`, `sin`: `float` read
  as real arithmetic;
* the rationals, with `roundTo 24`, the rounding to the nearest number of 24 significant bits,
  ties to even, and the correctly rounded square root `sqrt32`: the arithmetic of binary32.
  The exponent is not bounded: overflow to an infinity, subnormal numbers and the sign of zero
  are not modelled.

NaN follows IEEE 754: it is absorbed by `+ - * /`, `sqrt`, `cos`, `sin`, `tan` and `fabs`,
every comparison with it is false, and `fmax` returns its other argument.  Division by zero
yields NaN: the only division of the program by a computed quantity is the one of `normalize`,
whose divisor `len` is zero, over the reals, exactly when the three numerators are zero
(`normalize_len_zero_iff`), the `0/0` case of IEEE 754.
-/

namespace HelloWorld

/-! ## C floats -/

/-- A C `float`: a finite value, or NaN. -/
inductive cfloat (F : Type) where
  | fin : F → cfloat F
  | nan : cfloat F
deriving DecidableEq

/-- The functions and constants of `<cmath>` used by the program. -/
structure CMath (F : Type) where
  sqrt : F → F
  tan : F → F
  cos : F → F
  sin : F → F
  M_PI : F

/-- The rounding of an exact result: `rnd` to a `float`, `rndDouble` to a `double`. -/
class Rounding (F : Type) where
  rnd : F → F
  rndDouble : F → F

/-- The nearest integer, ties to the even one. -/
def roundEven (y : ℚ) : ℤ :=
  if y - ⌊y⌋ < 1 / 2 then ⌊y⌋
  else if 1 / 2 < y - ⌊y⌋ then ⌊y⌋ + 1
  else if ⌊y⌋ % 2 = 0 then ⌊y⌋
  else ⌊y⌋ + 1

/-- The nearest number of `p` significant bits, ties to even: `x` lies in the binade
`2 ^ e ≤ |x| < 2 ^ (e + 1)` for `e = Int.log 2 |x|`, where these numbers are the multiples of
`2 ^ (e - (p - 1))`. -/
def roundTo (p : Nat) (x : ℚ) : ℚ :=
  if x = 0 then 0
  else roundEven (x / 2 ^ (Int.log 2 |x| - ((p : ℤ) - 1))) * 2 ^ (Int.log 2 |x| - ((p : ℤ) - 1))

/-- The correctly rounded square root of binary32, for `0 ≤ x`: with `j` such that
`2 ^ 52 ≤ x * 4 ^ j` and `r` the integer square root of `⌊x * 4 ^ j⌋`, the root of `x` is
`r / 2 ^ j` when `r * r = x * 4 ^ j` and lies strictly between `r / 2 ^ j` and `(r + 1) / 2 ^ j`
otherwise, where it rounds as `(r + 1/2) / 2 ^ j` does. -/
def sqrt32 (x : ℚ) : ℚ :=
  if x ≤ 0 then 0
  else
    let j : ℤ := 26 - Int.log 2 x / 2
    let r : Nat := Nat.sqrt ⌊x * 4 ^ j⌋₊
    if ((r * r : Nat) : ℚ) = x * 4 ^ j then roundTo 24 (r / 2 ^ j)
    else roundTo 24 ((2 * r + 1) / (2 * 2 ^ j))

/-- The real reading: no rounding. -/
instance : Rounding ℝ := ⟨fun x => x, fun x => x⟩

/-- The binary32 reading: `float` has 24 significant bits, `double` has 53. -/
instance : Rounding ℚ := ⟨roundTo 24, roundTo 53⟩

section Floats

variable {F : Type} [LinearOrderedField F] [Rounding F]

namespace cfloat

/-- Float addition `a + b`: the rounded sum. -/
def add : cfloat F → cfloat F → cfloat F
  | fin a, fin b => fin (Rounding.rnd (a + b))
  | _, _ => nan

/-- Float subtraction `a - b`: the rounded difference. -/
def sub : cfloat F → cfloat F → cfloat F
  | fin a, fin b => fin (Rounding.rnd (a - b))
  | _, _ => nan

/-- Float multiplication `a * b`: the rounded product. -/
def mul : cfloat F → cfloat F → cfloat F
  | fin a, fin b => fin (Rounding.rnd (a * b))
  | _, _ => nan

/-- Float division `a / b`: the rounded quotient; a zero divisor gives NaN. -/
def div : cfloat F → cfloat F → cfloat F
  | fin a, fin b => if b = 0 then nan else fin (Rounding.rnd (a / b))
  | _, _ => nan

/-- The comparison `a < b`; false when an operand is NaN. -/
def lt : cfloat F → cfloat F → Bool
  | fin a, fin b => decide (a < b)
  | _, _ => false

instance : Add (cfloat F) := ⟨add⟩
instance : Sub (cfloat F) := ⟨sub⟩
instance : Mul (cfloat F) := ⟨mul⟩
instance : Div (cfloat F) := ⟨div⟩

end cfloat

open cfloat

/-- A `float` literal such as `0.5f`, or an integer converted to `float`: rounded. -/
def lit (x : F) : cfloat F := fin (Rounding.rnd x)

/-- The `<cmath>` function `fmax(a, b)`: when one argument is NaN the other is returned. -/
def fmax : cfloat F → cfloat F → cfloat F
  | fin a, fin b => fin (max a b)
  | fin a, nan => fin a
  | nan, b => b

/-- The `<cmath>` function `fabs(a)`. -/
def fabs : cfloat F → cfloat F
  | fin a => fin |a|
  | nan => nan

/-- The `<cmath>` function `sqrt(a)`; NaN for a negative argument. -/
def sqrt (m : CMath F) : cfloat F → cfloat F
  | fin a => if a < 0 then nan else fin (m.sqrt a)
  | nan => nan

/-- The `<cmath>` function `tan(a)`. -/
def tan (m : CMath F) : cfloat F → cfloat F
  | fin a => fin (m.tan a)
  | nan => nan

/-- The `<cmath>` function `cos(a)`. -/
def cos (m : CMath F) : cfloat F → cfloat F
  | fin a => fin (m.cos a)
  | nan => nan

/-- The `<cmath>` function `sin(a)`. -/
def sin (m : CMath F) : cfloat F → cfloat F
  | fin a => fin (m.sin a)
  | nan => nan

/-! ## Data model -/

/-- The struct `float3`. -/
structure float3 (F : Type) where
  x : cfloat F
  y : cfloat F
  z : cfloat F
deriving DecidableEq

/-- The struct `float4`. -/
structure float4 (F : Type) where
  x : cfloat F
  y : cfloat F
  z : cfloat F
  w : cfloat F
deriving DecidableEq

/-- The default constructor `float4()`. -/
def float4.default : float4 F := ⟨lit 0, lit 0, lit 0, lit 0⟩

/-- The struct `Camera`. -/
structure Camera (F : Type) where
  eye : float3 F
  lookat : float3 F
  up : float3 F
  fovy : cfloat F
  aspect : cfloat F

/-- The scene state of `RayTracingEngine`: the camera and the rotation angle.  The handles of
the window, of OpenGL and of OptiX take no part in the computation of a frame. -/
structure RayTracingEngine (F : Type) where
  camera : Camera F
  rotation_angle : cfloat F

/-- The member `width`. -/
def width : Nat := 1024

/-- The member `height`. -/
def height : Nat := 768

/-- The constructor `RayTracingEngine()`. -/
def RayTracingEngine.new (m : CMath F) : RayTracingEngine F :=
  { camera :=
      { eye := ⟨lit 0, lit 0, lit 5⟩
        lookat := ⟨lit 0, lit 0, lit 0⟩
        up := ⟨lit 0, lit 1, lit 0⟩
        fovy := fin (Rounding.rnd
          (Rounding.rndDouble (Rounding.rndDouble (45.0 * m.M_PI) / 180.0)))
        aspect := lit (width : F) / lit (height : F) }
    rotation_angle := lit 0.0 }

/-! ## Vector helper functions -/

/-- The method `normalize`. -/
def normalize (m : CMath F) (v : float3 F) : float3 F :=
  let len := sqrt m (v.x * v.x + v.y * v.y + v.z * v.z)
  ⟨v.x / len, v.y / len, v.z / len⟩

/-- The method `subtract`. -/
def subtract (a b : float3 F) : float3 F :=
  ⟨a.x - b.x, a.y - b.y, a.z - b.z⟩

/-- The method `add`. -/
def add (a b : float3 F) : float3 F :=
  ⟨a.x + b.x, a.y + b.y, a.z + b.z⟩

/-- The method `multiply`. -/
def multiply (v : float3 F) (s : cfloat F) : float3 F :=
  ⟨v.x * s, v.y * s, v.z * s⟩

/-- The method `cross`. -/
def cross (a b : float3 F) : float3 F :=
  ⟨a.y * b.z - a.z * b.y, a.z * b.x - a.x * b.z, a.x * b.y - a.y * b.x⟩

/-- The method `dot`. -/
def dot (a b : float3 F) : cfloat F :=
  a.x * b.x + a.y * b.y + a.z * b.z

/-! ## Scene markers -/

/-- The method `addBox`: eight copies of `center` are pushed; `half_size` is computed and
not used. -/
def addBox (vertices : List (float3 F)) (center size : float3 F) : List (float3 F) :=
  let _half_size : float3 F := ⟨size.x * lit 0.5, size.y * lit 0.5, size.z * lit 0.5⟩
  (List.range 8).foldl (fun vertices _ => vertices ++ [center]) vertices

/-- The method `addLetter_H`. -/
def addLetter_H (vertices : List (float3 F)) (pos : float3 F) : List (float3 F) :=
  let vertices := addBox vertices ⟨pos.x, pos.y + lit 0.5, pos.z⟩ ⟨lit 0.05, lit 0.5, lit 0.1⟩
  let vertices := addBox vertices ⟨pos.x + lit 0.4, pos.y + lit 0.5, pos.z⟩
    ⟨lit 0.05, lit 0.5, lit 0.1⟩
  addBox vertices ⟨pos.x + lit 0.2, pos.y + lit 0.5, pos.z⟩ ⟨lit 0.2, lit 0.05, lit 0.1⟩

/-- The method `addLetter_E`. -/
def addLetter_E (vertices : List (float3 F)) (pos : float3 F) : List (float3 F) :=
  let vertices := addBox vertices ⟨pos.x, pos.y + lit 0.5, pos.z⟩ ⟨lit 0.05, lit 0.5, lit 0.1⟩
  let vertices := addBox vertices ⟨pos.x + lit 0.15, pos.y + lit 0.9, pos.z⟩
    ⟨lit 0.15, lit 0.05, lit 0.1⟩
  let vertices := addBox vertices ⟨pos.x + lit 0.1, pos.y + lit 0.5, pos.z⟩
    ⟨lit 0.1, lit 0.05, lit 0.1⟩
  addBox vertices ⟨pos.x + lit 0.15, pos.y + lit 0.1, pos.z⟩ ⟨lit 0.15, lit 0.05, lit 0.1⟩

/-- The method `addLetter_L`. -/
def addLetter_L (vertices : List (float3 F)) (pos : float3 F) : List (float3 F) :=
  let vertices := addBox vertices ⟨pos.x, pos.y + lit 0.5, pos.z⟩ ⟨lit 0.05, lit 0.5, lit 0.1⟩
  addBox vertices ⟨pos.x + lit 0.15, pos.y + lit 0.1, pos.z⟩ ⟨lit 0.15, lit 0.05, lit 0.1⟩

/-- The method `addLetter_O`. -/
def addLetter_O (vertices : List (float3 F)) (pos : float3 F) : List (float3 F) :=
  let vertices := addBox vertices ⟨pos.x, pos.y + lit 0.5, pos.z⟩ ⟨lit 0.05, lit 0.4, lit 0.1⟩
  let vertices := addBox vertices ⟨pos.x + lit 0.35, pos.y + lit 0.5, pos.z⟩
    ⟨lit 0.05, lit 0.4, lit 0.1⟩
  let vertices := addBox vertices ⟨pos.x + lit 0.2, pos.y + lit 0.9, pos.z⟩
    ⟨lit 0.15, lit 0.05, lit 0.1⟩
  addBox vertices ⟨pos.x + lit 0.2, pos.y + lit 0.1, pos.z⟩ ⟨lit 0.15, lit 0.05, lit 0.1⟩

/-- The method `addLetter_W`. -/
def addLetter_W (vertices : List (float3 F)) (pos : float3 F) : List (float3 F) :=
  let vertices := addBox vertices ⟨pos.x, pos.y + lit 0.5, pos.z⟩ ⟨lit 0.05, lit 0.5, lit 0.1⟩
  let vertices := addBox vertices ⟨pos.x + lit 0.2, pos.y + lit 0.3, pos.z⟩
    ⟨lit 0.05, lit 0.3, lit 0.1⟩
  addBox vertices ⟨pos.x + lit 0.4, pos.y + lit 0.5, pos.z⟩ ⟨lit 0.05, lit 0.5, lit 0.1⟩

/-- The method `addLetter_R`. -/
def addLetter_R (vertices : List (float3 F)) (pos : float3 F) : List (float3 F) :=
  let vertices := addBox vertices ⟨pos.x, pos.y + lit 0.5, pos.z⟩ ⟨lit 0.05, lit 0.5, lit 0.1⟩
  let vertices := addBox vertices ⟨pos.x + lit 0.15, pos.y + lit 0.9, pos.z⟩
    ⟨lit 0.15, lit 0.05, lit 0.1⟩
  let vertices := addBox vertices ⟨pos.x + lit 0.15, pos.y + lit 0.5, pos.z⟩
    ⟨lit 0.15, lit 0.05, lit 0.1⟩
  let vertices := addBox vertices ⟨pos.x + lit 0.3, pos.y + lit 0.7, pos.z⟩
    ⟨lit 0.05, lit 0.2, lit 0.1⟩
  addBox vertices ⟨pos.x + lit 0.25, pos.y + lit 0.3, pos.z⟩ ⟨lit 0.1, lit 0.05, lit 0.1⟩

/-- The method `addLetter_D`. -/
def addLetter_D (vertices : List (float3 F)) (pos : float3 F) : List (float3 F) :=
  let vertices := addBox vertices ⟨pos.x, pos.y + lit 0.5, pos.z⟩ ⟨lit 0.05, lit 0.5, lit 0.1⟩
  let vertices := addBox vertices ⟨pos.x + lit 0.1, pos.y + lit 0.9, pos.z⟩
    ⟨lit 0.1, lit 0.05, lit 0.1⟩
  let vertices := addBox vertices ⟨pos.x + lit 0.1, pos.y + lit 0.1, pos.z⟩
    ⟨lit 0.1, lit 0.05, lit 0.1⟩
  addBox vertices ⟨pos.x + lit 0.25, pos.y + lit 0.5, pos.z⟩ ⟨lit 0.05, lit 0.4, lit 0.1⟩

/-- The method `generateHelloWorldGeometry`. -/
def generateHelloWorldGeometry : List (float3 F) :=
  let vertices : List (float3 F) := []
  let vertices := addLetter_H vertices ⟨lit (-4.0), lit 0.0, lit 0.0⟩
  let vertices := addLetter_E vertices ⟨lit (-3.0), lit 0.0, lit 0.0⟩
  let vertices := addLetter_L vertices ⟨lit (-2.0), lit 0.0, lit 0.0⟩
  let vertices := addLetter_L vertices ⟨lit (-1.0), lit 0.0, lit 0.0⟩
  let vertices := addLetter_O vertices ⟨lit 0.0, lit 0.0, lit 0.0⟩
  let vertices := addLetter_W vertices ⟨lit 1.5, lit 0.0, lit 0.0⟩
  let vertices := addLetter_O vertices ⟨lit 2.5, lit 0.0, lit 0.0⟩
  let vertices := addLetter_R vertices ⟨lit 3.5, lit 0.0, lit 0.0⟩
  let vertices := addLetter_L vertices ⟨lit 4.5, lit 0.0, lit 0.0⟩
  addLetter_D vertices ⟨lit 5.5, lit 0.0, lit 0.0⟩

/-! ## Rays and shading -/

/-- The local `half_height` of `generateRay`. -/
def generateRay.half_height (m : CMath F) (self : RayTracingEngine F) : cfloat F :=
  let theta := self.camera.fovy
  tan m (theta * lit 0.5)

/-- The local `half_width` of `generateRay`. -/
def generateRay.half_width (m : CMath F) (self : RayTracingEngine F) : cfloat F :=
  self.camera.aspect * generateRay.half_height m self

/-- The local `w` of `generateRay`. -/
def generateRay.w (m : CMath F) (self : RayTracingEngine F) : float3 F :=
  normalize m (subtract self.camera.eye self.camera.lookat)

/-- The local `u_vec` of `generateRay`. -/
def generateRay.u_vec (m : CMath F) (self : RayTracingEngine F) : float3 F :=
  normalize m (cross self.camera.up (generateRay.w m self))

/-- The local `v_vec` of `generateRay`. -/
def generateRay.v_vec (m : CMath F) (self : RayTracingEngine F) : float3 F :=
  cross (generateRay.w m self) (generateRay.u_vec m self)

/-- The local `horizontal` of `generateRay`. -/
def generateRay.horizontal (m : CMath F) (self : RayTracingEngine F) : float3 F :=
  multiply (generateRay.u_vec m self) (lit 2.0 * generateRay.half_width m self)

/-- The local `vertical` of `generateRay`. -/
def generateRay.vertical (m : CMath F) (self : RayTracingEngine F) : float3 F :=
  multiply (generateRay.v_vec m self) (lit 2.0 * generateRay.half_height m self)

/-- The local `lower_left` of `generateRay`. -/
def generateRay.lower_left (m : CMath F) (self : RayTracingEngine F) : float3 F :=
  subtract (subtract (subtract self.camera.eye (multiply (generateRay.horizontal m self) (lit 0.5)))
    (multiply (generateRay.vertical m self) (lit 0.5))) (generateRay.w m self)

/-- The argument of the final `normalize` of `generateRay`. -/
def generateRay.direction (m : CMath F) (self : RayTracingEngine F) (u v : cfloat F) :
    float3 F :=
  subtract (add (add (generateRay.lower_left m self) (multiply (generateRay.horizontal m self) u))
    (multiply (generateRay.vertical m self) v)) self.camera.eye

/-- The method `generateRay`. -/
def generateRay (m : CMath F) (self : RayTracingEngine F) (u v : cfloat F) : float3 F :=
  normalize m (generateRay.direction m self u v)

/-- The local `rotated_dir` of `traceRay`. -/
def traceRay.rotated_dir (m : CMath F) (self : RayTracingEngine F) (ray_dir : float3 F) :
    float3 F :=
  let cos_angle := cos m self.rotation_angle
  let sin_angle := sin m self.rotation_angle
  ⟨ray_dir.x * cos_angle - ray_dir.z * sin_angle,
   ray_dir.y,
   ray_dir.x * sin_angle + ray_dir.z * cos_angle⟩

/-- The local `light_dir` of `traceRay`. -/
def traceRay.light_dir : float3 F := ⟨lit 0.577, lit 0.577, lit 0.577⟩

/-- The local `intensity` of `traceRay`. -/
def traceRay.intensity (m : CMath F) (self : RayTracingEngine F) (ray_dir : float3 F) :
    cfloat F :=
  fmax (lit 0.1) (dot (traceRay.rotated_dir m self ray_dir) traceRay.light_dir)

/-- The local `base_color` of `traceRay`, after the conditional assignment. -/
def traceRay.base_color (m : CMath F) (self : RayTracingEngine F) (ray_dir : float3 F)
    (geometry : List (float3 F)) : float3 F :=
  let rotated_dir := traceRay.rotated_dir m self ray_dir
  let base_color : float3 F := ⟨lit 0.2, lit 0.6, lit 1.0⟩
  if !geometry.isEmpty && lt (fabs rotated_dir.x) (lit 0.5) && lt (fabs rotated_dir.y) (lit 0.3)
  then ⟨lit 1.0, lit 0.8, lit 0.2⟩
  else base_color

/-- The method `traceRay`. -/
def traceRay (m : CMath F) (self : RayTracingEngine F) (ray_dir : float3 F)
    (geometry : List (float3 F)) : float3 F :=
  multiply (traceRay.base_color m self ray_dir geometry) (traceRay.intensity m self ray_dir)

/-! ## Frame loop -/

/-- The body of the ray tracing loop of `renderFrame` at pixel `(x, y)`. -/
def renderFrame.pixel (m : CMath F) (self : RayTracingEngine F) (geometry : List (float3 F))
    (pixels : List (float4 F)) (y x : Nat) : List (float4 F) :=
  let u := lit (x : F) / lit (width : F)
  let v := lit (y : F) / lit (height : F)
  let ray_dir := generateRay m self u v
  let color := traceRay m self ray_dir geometry
  pixels.set (y * width + x) ⟨color.x, color.y, color.z, lit 1.0⟩

/-- The method `renderFrame`: the engine after the frame, and the pixel buffer handed to
`glTexSubImage2D`. -/
def renderFrame (m : CMath F) (self : RayTracingEngine F) :
    RayTracingEngine F × List (float4 F) :=
  let self := { self with rotation_angle := self.rotation_angle + lit 0.02 }
  let pixels : List (float4 F) := List.replicate (width * height) float4.default
  let geometry : List (float3 F) := generateHelloWorldGeometry
  let pixels := (List.range height).foldl
    (fun pixels y => (List.range width).foldl
      (fun pixels x => renderFrame.pixel m self geometry pixels y x) pixels) pixels
  (self, pixels)

end Floats

/-! ## Arithmetic of C floats -/

section Arithmetic

open cfloat

variable {F : Type} [LinearOrderedField F] [Rounding F]

@[simp] theorem add_fin_fin (a b : F) :
    (fin a + fin b : cfloat F) = fin (Rounding.rnd (a + b)) := rfl

@[simp] theorem sub_fin_fin (a b : F) :
    (fin a - fin b : cfloat F) = fin (Rounding.rnd (a - b)) := rfl

@[simp] theorem mul_fin_fin (a b : F) :
    (fin a * fin b : cfloat F) = fin (Rounding.rnd (a * b)) := rfl

theorem div_fin_fin (a b : F) :
    (fin a / fin b : cfloat F) = if b = 0 then nan else fin (Rounding.rnd (a / b)) := rfl

@[simp] theorem div_fin_fin_of_ne (a : F) {b : F} (h : b ≠ 0) :
    (fin a / fin b : cfloat F) = fin (Rounding.rnd (a / b)) := by
  rw [div_fin_fin, if_neg h]

@[simp] theorem fin_div_zero (a : F) : (fin a / fin 0 : cfloat F) = nan := by
  rw [div_fin_fin, if_pos rfl]

@[simp] theorem nan_add (a : cfloat F) : nan + a = nan := rfl

@[simp] theorem add_nan (a : cfloat F) : a + nan = nan := by cases a <;> rfl

@[simp] theorem nan_sub (a : cfloat F) : nan - a = nan := rfl

@[simp] theorem sub_nan (a : cfloat F) : a - nan = nan := by cases a <;> rfl

@[simp] theorem nan_mul (a : cfloat F) : nan * a = nan := rfl

@[simp] theorem mul_nan (a : cfloat F) : a * nan = nan := by cases a <;> rfl

@[simp] theorem nan_div (a : cfloat F) : nan / a = nan := rfl

@[simp] theorem div_nan (a : cfloat F) : a / nan = nan := by cases a <;> rfl

end Arithmetic

section Comparisons

open cfloat

theorem lit_eq {F : Type} [Rounding F] (x : F) :
    (lit x : cfloat F) = fin (Rounding.rnd x) := rfl

@[simp] theorem lt_fin_fin {F : Type} [LinearOrderedField F] (a b : F) :
    lt (fin a) (fin b) = decide (a < b) := rfl

@[simp] theorem lt_nan_left {F : Type} [LinearOrderedField F] (a : cfloat F) :
    lt nan a = false := rfl

@[simp] theorem lt_nan_right {F : Type} [LinearOrderedField F] (a : cfloat F) :
    lt a nan = false := by cases a <;> rfl

@[simp] theorem fmax_fin_fin {F : Type} [LinearOrderedField F] (a b : F) :
    fmax (fin a) (fin b) = fin (max a b) := rfl

@[simp] theorem fmax_fin_nan {F : Type} [LinearOrderedField F] (a : F) :
    fmax (fin a) nan = fin a := rfl

@[simp] theorem fmax_nan_left {F : Type} [LinearOrderedField F] (b : cfloat F) :
    fmax nan b = b := rfl

@[simp] theorem fabs_fin {F : Type} [LinearOrderedField F] (a : F) :
    fabs (fin a) = fin |a| := rfl

@[simp] theorem fabs_nan {F : Type} [LinearOrderedField F] :
    fabs (nan : cfloat F) = nan := rfl

theorem sqrt_fin {F : Type} [LinearOrderedField F] (m : CMath F) (a : F) :
    sqrt m (fin a) = if a < 0 then nan else fin (m.sqrt a) := rfl

@[simp] theorem sqrt_fin_of_nonneg {F : Type} [LinearOrderedField F] (m : CMath F) {a : F}
    (h : 0 ≤ a) : sqrt m (fin a) = fin (m.sqrt a) := by
  rw [sqrt_fin, if_neg (not_lt.mpr h)]

@[simp] theorem sqrt_nan {F : Type} [LinearOrderedField F] (m : CMath F) :
    sqrt m nan = nan := rfl

/-- A sum of three squares vanishes only when its three terms do. -/
theorem sq_sum_eq_zero_iff {F : Type} [LinearOrderedField F] (x y z : F) :
    x * x + y * y + z * z = 0 ↔ x = 0 ∧ y = 0 ∧ z = 0 := by
  constructor
  · intro h
    have hx := mul_self_nonneg x
    have hy := mul_self_nonneg y
    have hz := mul_self_nonneg z
    refine ⟨?_, ?_, ?_⟩ <;> apply mul_self_eq_zero.mp <;> linarith
  · rintro ⟨rfl, rfl, rfl⟩
    simp

theorem sq_sum_nonneg {F : Type} [LinearOrderedField F] (x y z : F) :
    0 ≤ x * x + y * y + z * z := by
  have hx := mul_self_nonneg x
  have hy := mul_self_nonneg y
  have hz := mul_self_nonneg z
  linarith

end Comparisons

section Trigonometry

open cfloat

@[simp] theorem tan_fin {F : Type} (m : CMath F) (a : F) : tan m (fin a) = fin (m.tan a) := rfl

@[simp] theorem tan_nan {F : Type} (m : CMath F) : tan m nan = nan := rfl

@[simp] theorem cos_fin {F : Type} (m : CMath F) (a : F) : cos m (fin a) = fin (m.cos a) := rfl

@[simp] theorem cos_nan {F : Type} (m : CMath F) : cos m nan = nan := rfl

@[simp] theorem sin_fin {F : Type} (m : CMath F) (a : F) : sin m (fin a) = fin (m.sin a) := rfl

@[simp] theorem sin_nan {F : Type} (m : CMath F) : sin m nan = nan := rfl

end Trigonometry

/-! ## The program over the reals -/

section Reals

open cfloat

@[simp] theorem rnd_real (x : ℝ) : Rounding.rnd x = x := rfl

@[simp] theorem rndDouble_real (x : ℝ) : Rounding.rndDouble x = x := rfl

@[simp] theorem lit_real (x : ℝ) : (lit x : cfloat ℝ) = fin x := rfl

@[simp] theorem fin_add_fin (a b : ℝ) : (fin a + fin b : cfloat ℝ) = fin (a + b) := rfl

@[simp] theorem fin_sub_fin (a b : ℝ) : (fin a - fin b : cfloat ℝ) = fin (a - b) := rfl

@[simp] theorem fin_mul_fin (a b : ℝ) : (fin a * fin b : cfloat ℝ) = fin (a * b) := rfl

theorem fin_div_fin (a b : ℝ) :
    (fin a / fin b : cfloat ℝ) = if b = 0 then nan else fin (a / b) := rfl

@[simp] theorem fin_div_fin_of_ne (a : ℝ) {b : ℝ} (h : b ≠ 0) :
    (fin a / fin b : cfloat ℝ) = fin (a / b) := by
  rw [fin_div_fin, if_neg h]

/-- The divisor `len` of `normalize` is zero exactly for the zero vector: the division by zero
of `normalize` is `0/0`. -/
theorem normalize_len_zero_iff (x y z : ℝ) :
    sqrt ⟨Real.sqrt, Real.tan, Real.cos, Real.sin, Real.pi⟩
        (fin x * fin x + fin y * fin y + fin z * fin z) = fin 0
      ↔ x = 0 ∧ y = 0 ∧ z = 0 := by
  have h0 := sq_sum_nonneg x y z
  simp only [fin_mul_fin, fin_add_fin, sqrt_fin_of_nonneg _ h0, fin.injEq]
  rw [Real.sqrt_eq_zero h0, sq_sum_eq_zero_iff]

/-- On the zero vector `normalize` divides `0` by `0`: the three components are NaN. -/
theorem normalize_zero :
    normalize ⟨Real.sqrt, Real.tan, Real.cos, Real.sin, Real.pi⟩
      (⟨fin 0, fin 0, fin 0⟩ : float3 ℝ) = ⟨nan, nan, nan⟩ := by
  simp [normalize]

/-- On a finite non-zero vector `normalize` divides by a positive length `n`. -/
theorem normalize_fin (x y z : ℝ) (h : ¬ (x = 0 ∧ y = 0 ∧ z = 0)) :
    ∃ n : ℝ, 0 < n ∧ n * n = x * x + y * y + z * z ∧ n = Real.sqrt (x * x + y * y + z * z) ∧
      normalize ⟨Real.sqrt, Real.tan, Real.cos, Real.sin, Real.pi⟩ ⟨fin x, fin y, fin z⟩
        = ⟨fin (x / n), fin (y / n), fin (z / n)⟩ := by
  have h0 := sq_sum_nonneg x y z
  have hne : x * x + y * y + z * z ≠ 0 := fun e => h ((sq_sum_eq_zero_iff x y z).mp e)
  have hpos : 0 < Real.sqrt (x * x + y * y + z * z) :=
    Real.sqrt_pos.mpr (lt_of_le_of_ne h0 (Ne.symm hne))
  refine ⟨Real.sqrt (x * x + y * y + z * z), hpos, Real.mul_self_sqrt h0, rfl, ?_⟩
  simp [normalize, sqrt_fin_of_nonneg _ h0, fin_div_fin_of_ne _ hpos.ne.symm]

/-- The camera basis of `generateRay` for a camera with `eye ≠ lookat` and `up` not parallel
to `eye - lookat`: `w` and `u_vec` are finite unit vectors and `u_vec` is orthogonal to `w`. -/
theorem generateRay_basis (ex ey ez lx ly lz ux uy uz : ℝ) (fovy aspect angle : cfloat ℝ)
    (heye : (⟨fin ex, fin ey, fin ez⟩ : float3 ℝ) ≠ ⟨fin lx, fin ly, fin lz⟩)
    (hup : cross (⟨fin ux, fin uy, fin uz⟩ : float3 ℝ)
        (subtract ⟨fin ex, fin ey, fin ez⟩ ⟨fin lx, fin ly, fin lz⟩) ≠ ⟨fin 0, fin 0, fin 0⟩) :
    ∃ n wx wy wz ax ay az : ℝ,
      0 < n ∧ n = Real.sqrt ((ex - lx) * (ex - lx) + (ey - ly) * (ey - ly) + (ez - lz) * (ez - lz)) ∧
      wx = (ex - lx) / n ∧ wy = (ey - ly) / n ∧ wz = (ez - lz) / n ∧
      generateRay.w ⟨Real.sqrt, Real.tan, Real.cos, Real.sin, Real.pi⟩
        ⟨⟨⟨fin ex, fin ey, fin ez⟩, ⟨fin lx, fin ly, fin lz⟩, ⟨fin ux, fin uy, fin uz⟩,
          fovy, aspect⟩, angle⟩ = ⟨fin wx, fin wy, fin wz⟩ ∧
      generateRay.u_vec ⟨Real.sqrt, Real.tan, Real.cos, Real.sin, Real.pi⟩
        ⟨⟨⟨fin ex, fin ey, fin ez⟩, ⟨fin lx, fin ly, fin lz⟩, ⟨fin ux, fin uy, fin uz⟩,
          fovy, aspect⟩, angle⟩ = ⟨fin ax, fin ay, fin az⟩ ∧
      wx * wx + wy * wy + wz * wz = 1 ∧
      ax * ax + ay * ay + az * az = 1 ∧
      ax * wx + ay * wy + az * wz = 0 := by
  have hd : ¬ (ex - lx = 0 ∧ ey - ly = 0 ∧ ez - lz = 0) := by
    rintro ⟨h1, h2, h3⟩
    apply heye
    rw [sub_eq_zero.mp h1, sub_eq_zero.mp h2, sub_eq_zero.mp h3]
  obtain ⟨n, hn, hnn, hnsqrt, hw⟩ := normalize_fin _ _ _ hd
  have hn0 : n ≠ 0 := hn.ne.symm
  have hc : ¬ (uy * ((ez - lz) / n) - uz * ((ey - ly) / n) = 0 ∧
      uz * ((ex - lx) / n) - ux * ((ez - lz) / n) = 0 ∧
      ux * ((ey - ly) / n) - uy * ((ex - lx) / n) = 0) := by
    rintro ⟨h1, h2, h3⟩
    apply hup
    have e1 : uy * (ez - lz) - uz * (ey - ly) = 0 := by
      have := congrArg (fun t => t * n) h1
      simp only [zero_mul] at this
      rw [← this]; field_simp
    have e2 : uz * (ex - lx) - ux * (ez - lz) = 0 := by
      have := congrArg (fun t => t * n) h2
      simp only [zero_mul] at this
      rw [← this]; field_simp
    have e3 : ux * (ey - ly) - uy * (ex - lx) = 0 := by
      have := congrArg (fun t => t * n) h3
      simp only [zero_mul] at this
      rw [← this]; field_simp
    simp only [cross, subtract, fin_sub_fin, fin_mul_fin, e1, e2, e3]
  obtain ⟨k, hk, hkk, -, hu⟩ := normalize_fin _ _ _ hc
  have hk0 : k ≠ 0 := hk.ne.symm
  refine ⟨n, (ex - lx) / n, (ey - ly) / n, (ez - lz) / n,
    (uy * ((ez - lz) / n) - uz * ((ey - ly) / n)) / k,
    (uz * ((ex - lx) / n) - ux * ((ez - lz) / n)) / k,
    (ux * ((ey - ly) / n) - uy * ((ex - lx) / n)) / k,
    hn, hnsqrt, rfl, rfl, rfl, ?_, ?_, ?_, ?_, ?_⟩
  · simpa [generateRay.w, subtract] using hw
  · have hw2 : generateRay.w ⟨Real.sqrt, Real.tan, Real.cos, Real.sin, Real.pi⟩
        ⟨⟨⟨fin ex, fin ey, fin ez⟩, ⟨fin lx, fin ly, fin lz⟩, ⟨fin ux, fin uy, fin uz⟩,
          fovy, aspect⟩, angle⟩ = ⟨fin ((ex - lx) / n), fin ((ey - ly) / n), fin ((ez - lz) / n)⟩ := by
      simpa [generateRay.w, subtract] using hw
    simp only [generateRay.u_vec, hw2, cross, fin_mul_fin, fin_sub_fin]
    exact hu
  · field_simp
    linarith
  · field_simp
    field_simp at hkk
    linarith
  · field_simp
    ring

/-- The argument of the final `normalize` of `generateRay`, for finite `fovy`, `aspect`, `u`, `v`
and a camera basis as in `generateRay_basis`: a finite vector whose component along `w` is `-1`,
and the ray returned is that vector divided by its positive length. -/
theorem generateRay_of_basis (ex ey ez lx ly lz ux uy uz fovy aspect u v : ℝ) (angle : cfloat ℝ)
    (heye : (⟨fin ex, fin ey, fin ez⟩ : float3 ℝ) ≠ ⟨fin lx, fin ly, fin lz⟩)
    (hup : cross (⟨fin ux, fin uy, fin uz⟩ : float3 ℝ)
        (subtract ⟨fin ex, fin ey, fin ez⟩ ⟨fin lx, fin ly, fin lz⟩) ≠ ⟨fin 0, fin 0, fin 0⟩) :
    ∃ wx wy wz dx dy dz k : ℝ,
      generateRay.w ⟨Real.sqrt, Real.tan, Real.cos, Real.sin, Real.pi⟩
        ⟨⟨⟨fin ex, fin ey, fin ez⟩, ⟨fin lx, fin ly, fin lz⟩, ⟨fin ux, fin uy, fin uz⟩,
          fin fovy, fin aspect⟩, angle⟩ = ⟨fin wx, fin wy, fin wz⟩ ∧
      generateRay.direction ⟨Real.sqrt, Real.tan, Real.cos, Real.sin, Real.pi⟩
        ⟨⟨⟨fin ex, fin ey, fin ez⟩, ⟨fin lx, fin ly, fin lz⟩, ⟨fin ux, fin uy, fin uz⟩,
          fin fovy, fin aspect⟩, angle⟩ (fin u) (fin v) = ⟨fin dx, fin dy, fin dz⟩ ∧
      dx * wx + dy * wy + dz * wz = -1 ∧
      0 < k ∧ k * k = dx * dx + dy * dy + dz * dz ∧
      generateRay ⟨Real.sqrt, Real.tan, Real.cos, Real.sin, Real.pi⟩
        ⟨⟨⟨fin ex, fin ey, fin ez⟩, ⟨fin lx, fin ly, fin lz⟩, ⟨fin ux, fin uy, fin uz⟩,
          fin fovy, fin aspect⟩, angle⟩ (fin u) (fin v) = ⟨fin (dx / k), fin (dy / k), fin (dz / k)⟩ := by
  obtain ⟨n, wx, wy, wz, ax, ay, az, -, -, -, -, -, hw, hu, hww, -, haw⟩ :=
    generateRay_basis ex ey ez lx ly lz ux uy uz (fin fovy) (fin aspect) angle heye hup
  have hdir : generateRay.direction ⟨Real.sqrt, Real.tan, Real.cos, Real.sin, Real.pi⟩
        ⟨⟨⟨fin ex, fin ey, fin ez⟩, ⟨fin lx, fin ly, fin lz⟩, ⟨fin ux, fin uy, fin uz⟩,
          fin fovy, fin aspect⟩, angle⟩ (fin u) (fin v) =
      ⟨fin (ex - ax * (2.0 * (aspect * Real.tan (fovy * 0.5))) * 0.5
              - (wy * az - wz * ay) * (2.0 * Real.tan (fovy * 0.5)) * 0.5 - wx
            + ax * (2.0 * (aspect * Real.tan (fovy * 0.5))) * u
            + (wy * az - wz * ay) * (2.0 * Real.tan (fovy * 0.5)) * v - ex),
       fin (ey - ay * (2.0 * (aspect * Real.tan (fovy * 0.5))) * 0.5
              - (wz * ax - wx * az) * (2.0 * Real.tan (fovy * 0.5)) * 0.5 - wy
            + ay * (2.0 * (aspect * Real.tan (fovy * 0.5))) * u
            + (wz * ax - wx * az) * (2.0 * Real.tan (fovy * 0.5)) * v - ey),
       fin (ez - az * (2.0 * (aspect * Real.tan (fovy * 0.5))) * 0.5
              - (wx * ay - wy * ax) * (2.0 * Real.tan (fovy * 0.5)) * 0.5 - wz
            + az * (2.0 * (aspect * Real.tan (fovy * 0.5))) * u
            + (wx * ay - wy * ax) * (2.0 * Real.tan (fovy * 0.5)) * v - ez)⟩ := by
    simp only [generateRay.direction, generateRay.lower_left, generateRay.horizontal,
      generateRay.vertical, generateRay.v_vec, generateRay.half_width, generateRay.half_height,
      hw, hu, cross, subtract, add, multiply, lit_real, fin_mul_fin, fin_sub_fin, fin_add_fin,
      tan_fin]
  rw [generateRay, hdir]
  set dx := ex - ax * (2.0 * (aspect * Real.tan (fovy * 0.5))) * 0.5
              - (wy * az - wz * ay) * (2.0 * Real.tan (fovy * 0.5)) * 0.5 - wx
            + ax * (2.0 * (aspect * Real.tan (fovy * 0.5))) * u
            + (wy * az - wz * ay) * (2.0 * Real.tan (fovy * 0.5)) * v - ex with hdx
  set dy := ey - ay * (2.0 * (aspect * Real.tan (fovy * 0.5))) * 0.5
              - (wz * ax - wx * az) * (2.0 * Real.tan (fovy * 0.5)) * 0.5 - wy
            + ay * (2.0 * (aspect * Real.tan (fovy * 0.5))) * u
            + (wz * ax - wx * az) * (2.0 * Real.tan (fovy * 0.5)) * v - ey with hdy
  set dz := ez - az * (2.0 * (aspect * Real.tan (fovy * 0.5))) * 0.5
              - (wx * ay - wy * ax) * (2.0 * Real.tan (fovy * 0.5)) * 0.5 - wz
            + az * (2.0 * (aspect * Real.tan (fovy * 0.5))) * u
            + (wx * ay - wy * ax) * (2.0 * Real.tan (fovy * 0.5)) * v - ez with hdz
  have hdw : dx * wx + dy * wy + dz * wz = -1 := by
    rw [hdx, hdy, hdz]
    linear_combination (-1 : ℝ) * hww
      + (2.0 * (aspect * Real.tan (fovy * 0.5)) * u
          - (2.0 * (aspect * Real.tan (fovy * 0.5))) * 0.5) * haw
  have hd0 : ¬ (dx = 0 ∧ dy = 0 ∧ dz = 0) := by
    rintro ⟨h1, h2, h3⟩
    rw [h1, h2, h3] at hdw
    norm_num at hdw
  obtain ⟨k, hk, hkk, -, hnorm⟩ := normalize_fin dx dy dz hd0
  exact ⟨wx, wy, wz, dx, dy, dz, k, hw, rfl, hdw, hk, hkk, hnorm⟩

/-- C1. For every non-degenerate camera (finite fields, `eye ≠ lookat`, `up` not parallel to
`eye - lookat`, `fovy` in `(0, π)`, `aspect > 0`), every rotation angle and every `u`, `v` in
`[0, 1]`: the vector passed to the final `normalize` of `generateRay` is finite and not the zero
vector, and `generateRay(u, v)` is a finite vector of length exactly 1. -/
theorem generateRay_unit_length (ex ey ez lx ly lz ux uy uz fovy aspect u v : ℝ)
    (angle : cfloat ℝ)
    (heye : (⟨fin ex, fin ey, fin ez⟩ : float3 ℝ) ≠ ⟨fin lx, fin ly, fin lz⟩)
    (hup : cross (⟨fin ux, fin uy, fin uz⟩ : float3 ℝ)
        (subtract ⟨fin ex, fin ey, fin ez⟩ ⟨fin lx, fin ly, fin lz⟩) ≠ ⟨fin 0, fin 0, fin 0⟩)
    (_hfovy : 0 < fovy ∧ fovy < Real.pi) (_haspect : 0 < aspect)
    (_hu : 0 ≤ u ∧ u ≤ 1) (_hv : 0 ≤ v ∧ v ≤ 1) :
    ∃ dx dy dz x y z : ℝ,
      generateRay.direction ⟨Real.sqrt, Real.tan, Real.cos, Real.sin, Real.pi⟩
        ⟨⟨⟨fin ex, fin ey, fin ez⟩, ⟨fin lx, fin ly, fin lz⟩, ⟨fin ux, fin uy, fin uz⟩,
          fin fovy, fin aspect⟩, angle⟩ (fin u) (fin v) = ⟨fin dx, fin dy, fin dz⟩ ∧
      (⟨fin dx, fin dy, fin dz⟩ : float3 ℝ) ≠ ⟨fin 0, fin 0, fin 0⟩ ∧
      generateRay ⟨Real.sqrt, Real.tan, Real.cos, Real.sin, Real.pi⟩
        ⟨⟨⟨fin ex, fin ey, fin ez⟩, ⟨fin lx, fin ly, fin lz⟩, ⟨fin ux, fin uy, fin uz⟩,
          fin fovy, fin aspect⟩, angle⟩ (fin u) (fin v) = ⟨fin x, fin y, fin z⟩ ∧
      Real.sqrt (x * x + y * y + z * z) = 1 := by
  obtain ⟨wx, wy, wz, dx, dy, dz, k, -, hdir, hdw, hk, hkk, hray⟩ :=
    generateRay_of_basis ex ey ez lx ly lz ux uy uz fovy aspect u v angle heye hup
  have hk0 : k ≠ 0 := hk.ne.symm
  refine ⟨dx, dy, dz, dx / k, dy / k, dz / k, hdir, ?_, hray, ?_⟩
  · intro h
    simp only [float3.mk.injEq, fin.injEq] at h
    obtain ⟨h1, h2, h3⟩ := h
    rw [h1, h2, h3] at hdw
    norm_num at hdw
  · have h1 : dx / k * (dx / k) + dy / k * (dy / k) + dz / k * (dz / k) = 1 := by
      field_simp
      linarith
    rw [h1, Real.sqrt_one]

/-- C1 at the camera of the constructor (`eye = (0,0,5)`, `lookat = (0,0,0)`, `up = (0,1,0)`,
`fovy = π/4`, `aspect = 1024/768`), rotation angle `0`, and `u = 1/4`, `v = 3/4`. -/
theorem generateRay_unit_length_witness :
    ∃ dx dy dz x y z : ℝ,
      generateRay.direction ⟨Real.sqrt, Real.tan, Real.cos, Real.sin, Real.pi⟩
        ⟨⟨⟨fin 0, fin 0, fin 5⟩, ⟨fin 0, fin 0, fin 0⟩, ⟨fin 0, fin 1, fin 0⟩,
          fin (Real.pi / 4), fin (1024 / 768)⟩, fin 0⟩ (fin (1 / 4)) (fin (3 / 4))
        = ⟨fin dx, fin dy, fin dz⟩ ∧
      (⟨fin dx, fin dy, fin dz⟩ : float3 ℝ) ≠ ⟨fin 0, fin 0, fin 0⟩ ∧
      generateRay ⟨Real.sqrt, Real.tan, Real.cos, Real.sin, Real.pi⟩
        ⟨⟨⟨fin 0, fin 0, fin 5⟩, ⟨fin 0, fin 0, fin 0⟩, ⟨fin 0, fin 1, fin 0⟩,
          fin (Real.pi / 4), fin (1024 / 768)⟩, fin 0⟩ (fin (1 / 4)) (fin (3 / 4))
        = ⟨fin x, fin y, fin z⟩ ∧
      Real.sqrt (x * x + y * y + z * z) = 1 :=
  generateRay_unit_length 0 0 5 0 0 0 0 1 0 (Real.pi / 4) (1024 / 768) (1 / 4) (3 / 4) (fin 0)
    (by simp)
    (by simp [cross, subtract])
    ⟨by positivity, by linarith [Real.pi_pos]⟩ (by norm_num) (by norm_num) (by norm_num)

/-- When `u_vec` is the NaN vector, so is the ray, whatever `u` and `v` are. -/
theorem generateRay_nan_of_u_vec {F : Type} [LinearOrderedField F] [Rounding F]
    (m : CMath F) (self : RayTracingEngine F) (u v : cfloat F)
    (h : generateRay.u_vec m self = ⟨nan, nan, nan⟩) :
    generateRay m self u v = ⟨nan, nan, nan⟩ := by
  simp [generateRay, generateRay.direction, generateRay.lower_left, generateRay.horizontal,
    generateRay.vertical, generateRay.v_vec, h, cross, multiply, subtract, add, normalize]

/-- Over the reals, the camera `eye = (0,0,5)`, `lookat = (0,0,0)`, `up = (0,0,1)` has `up`
parallel to `eye - lookat`.  At `u = v = 0.5`, `cross(up, w)` is the zero vector, `normalize` is
applied to it, and `generateRay` returns the vector `(NaN, NaN, NaN)`. -/
theorem generateRay_degenerate_real :
    cross (⟨fin 0, fin 0, fin 1⟩ : float3 ℝ)
        (subtract ⟨fin 0, fin 0, fin 5⟩ ⟨fin 0, fin 0, fin 0⟩) = ⟨fin 0, fin 0, fin 0⟩ ∧
      cross (⟨fin 0, fin 0, fin 1⟩ : float3 ℝ)
        (generateRay.w ⟨Real.sqrt, Real.tan, Real.cos, Real.sin, Real.pi⟩
          ⟨⟨⟨fin 0, fin 0, fin 5⟩, ⟨fin 0, fin 0, fin 0⟩, ⟨fin 0, fin 0, fin 1⟩,
            fin (Real.pi / 4), fin (1024 / 768)⟩, fin 0⟩) = ⟨fin 0, fin 0, fin 0⟩ ∧
      generateRay.u_vec ⟨Real.sqrt, Real.tan, Real.cos, Real.sin, Real.pi⟩
          ⟨⟨⟨fin 0, fin 0, fin 5⟩, ⟨fin 0, fin 0, fin 0⟩, ⟨fin 0, fin 0, fin 1⟩,
            fin (Real.pi / 4), fin (1024 / 768)⟩, fin 0⟩ = ⟨nan, nan, nan⟩ ∧
      generateRay ⟨Real.sqrt, Real.tan, Real.cos, Real.sin, Real.pi⟩
          ⟨⟨⟨fin 0, fin 0, fin 5⟩, ⟨fin 0, fin 0, fin 0⟩, ⟨fin 0, fin 0, fin 1⟩,
            fin (Real.pi / 4), fin (1024 / 768)⟩, fin 0⟩ (fin 0.5) (fin 0.5) = ⟨nan, nan, nan⟩ := by
  have hw : generateRay.w ⟨Real.sqrt, Real.tan, Real.cos, Real.sin, Real.pi⟩
      ⟨⟨⟨fin 0, fin 0, fin 5⟩, ⟨fin 0, fin 0, fin 0⟩, ⟨fin 0, fin 0, fin 1⟩,
        fin (Real.pi / 4), fin (1024 / 768)⟩, fin 0⟩ = ⟨fin 0, fin 0, fin 1⟩ := by
    have h5 : Real.sqrt (5 * 5) = 5 := Real.sqrt_mul_self (by norm_num)
    simp [generateRay.w, subtract, normalize, h5]
  have hc : cross (⟨fin 0, fin 0, fin 1⟩ : float3 ℝ)
      (generateRay.w ⟨Real.sqrt, Real.tan, Real.cos, Real.sin, Real.pi⟩
        ⟨⟨⟨fin 0, fin 0, fin 5⟩, ⟨fin 0, fin 0, fin 0⟩, ⟨fin 0, fin 0, fin 1⟩,
          fin (Real.pi / 4), fin (1024 / 768)⟩, fin 0⟩) = ⟨fin 0, fin 0, fin 0⟩ := by
    rw [hw]
    simp [cross]
  have hu : generateRay.u_vec ⟨Real.sqrt, Real.tan, Real.cos, Real.sin, Real.pi⟩
      ⟨⟨⟨fin 0, fin 0, fin 5⟩, ⟨fin 0, fin 0, fin 0⟩, ⟨fin 0, fin 0, fin 1⟩,
        fin (Real.pi / 4), fin (1024 / 768)⟩, fin 0⟩ = ⟨nan, nan, nan⟩ := by
    rw [generateRay.u_vec, hc, normalize_zero]
  exact ⟨by simp [cross, subtract], hc, hu, generateRay_nan_of_u_vec _ _ _ _ hu⟩

/-- Over the reals, for every camera with finite `eye`, `lookat` and `up` whose `up` is parallel
to `eye - lookat` (`cross(up, eye - lookat)` is the zero vector), whatever `fovy`, `aspect`, the
rotation angle, `u` and `v` are: `u_vec` is the NaN vector and `generateRay(u, v)` returns the
vector `(NaN, NaN, NaN)`.  In binary32 the rounding of `w` can leave a non-zero `cross(up, w)`. -/
theorem generateRay_parallel_real (ex ey ez lx ly lz ux uy uz : ℝ)
    (fovy aspect angle u v : cfloat ℝ)
    (hup : cross (⟨fin ux, fin uy, fin uz⟩ : float3 ℝ)
        (subtract ⟨fin ex, fin ey, fin ez⟩ ⟨fin lx, fin ly, fin lz⟩) = ⟨fin 0, fin 0, fin 0⟩) :
    generateRay.u_vec ⟨Real.sqrt, Real.tan, Real.cos, Real.sin, Real.pi⟩
        ⟨⟨⟨fin ex, fin ey, fin ez⟩, ⟨fin lx, fin ly, fin lz⟩, ⟨fin ux, fin uy, fin uz⟩,
          fovy, aspect⟩, angle⟩ = ⟨nan, nan, nan⟩ ∧
      generateRay ⟨Real.sqrt, Real.tan, Real.cos, Real.sin, Real.pi⟩
        ⟨⟨⟨fin ex, fin ey, fin ez⟩, ⟨fin lx, fin ly, fin lz⟩, ⟨fin ux, fin uy, fin uz⟩,
          fovy, aspect⟩, angle⟩ u v = ⟨nan, nan, nan⟩ := by
  have hu : generateRay.u_vec ⟨Real.sqrt, Real.tan, Real.cos, Real.sin, Real.pi⟩
        ⟨⟨⟨fin ex, fin ey, fin ez⟩, ⟨fin lx, fin ly, fin lz⟩, ⟨fin ux, fin uy, fin uz⟩,
          fovy, aspect⟩, angle⟩ = ⟨nan, nan, nan⟩ := by
    simp only [cross, subtract, fin_sub_fin, fin_mul_fin, float3.mk.injEq, fin.injEq] at hup
    obtain ⟨h1, h2, h3⟩ := hup
    by_cases hd : ex - lx = 0 ∧ ey - ly = 0 ∧ ez - lz = 0
    · obtain ⟨d1, d2, d3⟩ := hd
      have hw : generateRay.w ⟨Real.sqrt, Real.tan, Real.cos, Real.sin, Real.pi⟩
          ⟨⟨⟨fin ex, fin ey, fin ez⟩, ⟨fin lx, fin ly, fin lz⟩, ⟨fin ux, fin uy, fin uz⟩,
            fovy, aspect⟩, angle⟩ = ⟨nan, nan, nan⟩ := by
        simp only [generateRay.w, subtract, fin_sub_fin, d1, d2, d3]
        exact normalize_zero
      simp [generateRay.u_vec, hw, cross, normalize]
    · obtain ⟨n, hn, -, -, hw⟩ := normalize_fin _ _ _ hd
      have hn0 : n ≠ 0 := hn.ne.symm
      have hw2 : generateRay.w ⟨Real.sqrt, Real.tan, Real.cos, Real.sin, Real.pi⟩
          ⟨⟨⟨fin ex, fin ey, fin ez⟩, ⟨fin lx, fin ly, fin lz⟩, ⟨fin ux, fin uy, fin uz⟩,
            fovy, aspect⟩, angle⟩
          = ⟨fin ((ex - lx) / n), fin ((ey - ly) / n), fin ((ez - lz) / n)⟩ := by
        simpa [generateRay.w, subtract] using hw
      have e1 : uy * ((ez - lz) / n) - uz * ((ey - ly) / n) = 0 := by
        field_simp
        linarith
      have e2 : uz * ((ex - lx) / n) - ux * ((ez - lz) / n) = 0 := by
        field_simp
        linarith
      have e3 : ux * ((ey - ly) / n) - uy * ((ex - lx) / n) = 0 := by
        field_simp
        linarith
      simp only [generateRay.u_vec, hw2, cross, fin_mul_fin, fin_sub_fin, e1, e2, e3]
      exact normalize_zero
  exact ⟨hu, generateRay_nan_of_u_vec _ _ _ _ hu⟩

/-- The camera `eye = (0,0,5)`, `lookat = (0,0,0)`, `up = (0,0,2)` over the reals. -/
theorem generateRay_parallel_real_witness :
    generateRay.u_vec ⟨Real.sqrt, Real.tan, Real.cos, Real.sin, Real.pi⟩
        ⟨⟨⟨fin 0, fin 0, fin 5⟩, ⟨fin 0, fin 0, fin 0⟩, ⟨fin 0, fin 0, fin 2⟩,
          fin (Real.pi / 4), fin (1024 / 768)⟩, fin 0⟩ = ⟨nan, nan, nan⟩ ∧
      generateRay ⟨Real.sqrt, Real.tan, Real.cos, Real.sin, Real.pi⟩
        ⟨⟨⟨fin 0, fin 0, fin 5⟩, ⟨fin 0, fin 0, fin 0⟩, ⟨fin 0, fin 0, fin 2⟩,
          fin (Real.pi / 4), fin (1024 / 768)⟩, fin 0⟩ (fin 0) (fin 1) = ⟨nan, nan, nan⟩ :=
  generateRay_parallel_real 0 0 5 0 0 0 0 0 2 (fin (Real.pi / 4)) (fin (1024 / 768)) (fin 0)
    (fin 0) (fin 1) (by simp [cross, subtract])

/-- The dot product of a vector of squared length 1 with `(0.577, 0.577, 0.577)` is at most 1. -/
theorem dot_light_le_one (a b c : ℝ) (h : a * a + b * b + c * c = 1) :
    a * 0.577 + b * 0.577 + c * 0.577 ≤ 1 := by
  nlinarith [sq_nonneg (a - b), sq_nonneg (b - c), sq_nonneg (a - c),
    sq_nonneg (a + b + c - 1.733)]

/-- The rotation of `traceRay` keeps the squared length. -/
theorem rotated_sq_length (x y z t : ℝ) :
    (x * Real.cos t - z * Real.sin t) * (x * Real.cos t - z * Real.sin t) + y * y
      + (x * Real.sin t + z * Real.cos t) * (x * Real.sin t + z * Real.cos t)
      = x * x + y * y + z * z := by
  have h := Real.sin_sq_add_cos_sq t
  linear_combination (x * x + z * z) * h

/-- C4. For every unit-length ray direction `d = (x, y, z)`, every rotation angle (NaN
included) and every camera, the intensity of `traceRay` is a finite number of `[0.1, 1.0]`;
for every ray direction and rotation angle with `dot(rotated, light_dir) < 0.1` and every
geometry list the colour returned is `base_color * 0.1`; and at rotation angle `0`,
`d = (0, 0, -1)` a non-empty scene gives `(0.1, 0.08, 0.02)`. -/
theorem traceRay_intensity_range (camera : Camera ℝ) (θ : cfloat ℝ) (x y z : ℝ)
    (d a : float3 ℝ) (g : List (float3 ℝ)) :
    (x * x + y * y + z * z = 1 →
      ∃ i : ℝ, traceRay.intensity ⟨Real.sqrt, Real.tan, Real.cos, Real.sin, Real.pi⟩ ⟨camera, θ⟩
          ⟨fin x, fin y, fin z⟩ = fin i ∧ 0.1 ≤ i ∧ i ≤ 1.0) ∧
      (lt (dot (traceRay.rotated_dir ⟨Real.sqrt, Real.tan, Real.cos, Real.sin, Real.pi⟩
          ⟨camera, θ⟩ d) traceRay.light_dir) (fin 0.1) = true →
        traceRay ⟨Real.sqrt, Real.tan, Real.cos, Real.sin, Real.pi⟩ ⟨camera, θ⟩ d g
          = multiply (traceRay.base_color ⟨Real.sqrt, Real.tan, Real.cos, Real.sin, Real.pi⟩
              ⟨camera, θ⟩ d g) (fin 0.1)) ∧
      traceRay ⟨Real.sqrt, Real.tan, Real.cos, Real.sin, Real.pi⟩ ⟨camera, fin 0⟩
          ⟨fin 0, fin 0, fin (-1)⟩ (a :: g)
        = ⟨fin 0.1, fin 0.08, fin 0.02⟩ := by
  refine ⟨?_, ?_, ?_⟩
  · intro hunit
    cases θ with
    | nan =>
      refine ⟨0.1, ?_, le_refl _, by norm_num⟩
      simp [traceRay.intensity, traceRay.rotated_dir, traceRay.light_dir, dot]
    | fin t =>
      refine ⟨max 0.1 ((x * Real.cos t - z * Real.sin t) * 0.577 + y * 0.577
        + (x * Real.sin t + z * Real.cos t) * 0.577), ?_, le_max_left _ _, ?_⟩
      · simp [traceRay.intensity, traceRay.rotated_dir, traceRay.light_dir, dot]
      · apply max_le (by norm_num)
        have h := dot_light_le_one _ _ _ ((rotated_sq_length x y z t).trans hunit)
        norm_num at h ⊢
        exact h
  · intro hdark
    rw [traceRay]
    congr 1
    rw [traceRay.intensity]
    cases hdot : dot (traceRay.rotated_dir ⟨Real.sqrt, Real.tan, Real.cos, Real.sin, Real.pi⟩
        ⟨camera, θ⟩ d) traceRay.light_dir with
    | nan => simp
    | fin r =>
      rw [hdot] at hdark
      simp only [lt_fin_fin, decide_eq_true_eq] at hdark
      simp [max_eq_left hdark.le]
  · simp [traceRay, traceRay.base_color, traceRay.intensity, traceRay.rotated_dir,
      traceRay.light_dir, dot, multiply]
    norm_num

/-- C4 at the camera of the constructor and rotation angle `0.02`: the unit direction
`(0.6, 0, 0.8)` has an intensity in `[0.1, 1.0]`, and the direction `(0, 0, -1)`, whose rotated
direction has a negative dot product with the light, is coloured `base_color * 0.1`. -/
theorem traceRay_intensity_range_witness :
    (∃ i : ℝ, traceRay.intensity ⟨Real.sqrt, Real.tan, Real.cos, Real.sin, Real.pi⟩
          ⟨(RayTracingEngine.new ⟨Real.sqrt, Real.tan, Real.cos, Real.sin, Real.pi⟩).camera,
            fin 0.02⟩ ⟨fin 0.6, fin 0, fin 0.8⟩ = fin i ∧ 0.1 ≤ i ∧ i ≤ 1.0) ∧
      traceRay ⟨Real.sqrt, Real.tan, Real.cos, Real.sin, Real.pi⟩
          ⟨(RayTracingEngine.new ⟨Real.sqrt, Real.tan, Real.cos, Real.sin, Real.pi⟩).camera,
            fin 0⟩ ⟨fin 0, fin 0, fin (-1)⟩ []
        = multiply (traceRay.base_color ⟨Real.sqrt, Real.tan, Real.cos, Real.sin, Real.pi⟩
            ⟨(RayTracingEngine.new ⟨Real.sqrt, Real.tan, Real.cos, Real.sin, Real.pi⟩).camera,
              fin 0⟩ ⟨fin 0, fin 0, fin (-1)⟩ []) (fin 0.1) :=
  ⟨(traceRay_intensity_range _ (fin 0.02) 0.6 0 0.8 ⟨fin 0, fin 0, fin 0⟩ ⟨fin 0, fin 0, fin 0⟩
      []).1 (by norm_num),
    (traceRay_intensity_range _ (fin 0) 0 0 0 ⟨fin 0, fin 0, fin (-1)⟩ ⟨fin 0, fin 0, fin 0⟩
      []).2.1 (by simp [traceRay.rotated_dir, traceRay.light_dir, dot]; norm_num)⟩

/-- The argument of the final `normalize` of `generateRay` in the camera basis: for a finite
eye, `fovy`, `aspect`, `u`, `v` and finite `w = (wx, wy, wz)`, `u_vec = (ax, ay, az)`, it is
`-w + (2u - 1) * half_width * u_vec + (2v - 1) * half_height * cross(w, u_vec)`. -/
theorem generateRay_direction_eq (ex ey ez fovy aspect u v wx wy wz ax ay az : ℝ)
    (lookat up : float3 ℝ) (angle : cfloat ℝ)
    (hw : generateRay.w ⟨Real.sqrt, Real.tan, Real.cos, Real.sin, Real.pi⟩
        ⟨⟨⟨fin ex, fin ey, fin ez⟩, lookat, up, fin fovy, fin aspect⟩, angle⟩
      = ⟨fin wx, fin wy, fin wz⟩)
    (hu : generateRay.u_vec ⟨Real.sqrt, Real.tan, Real.cos, Real.sin, Real.pi⟩
        ⟨⟨⟨fin ex, fin ey, fin ez⟩, lookat, up, fin fovy, fin aspect⟩, angle⟩
      = ⟨fin ax, fin ay, fin az⟩) :
    generateRay.direction ⟨Real.sqrt, Real.tan, Real.cos, Real.sin, Real.pi⟩
        ⟨⟨⟨fin ex, fin ey, fin ez⟩, lookat, up, fin fovy, fin aspect⟩, angle⟩ (fin u) (fin v)
      = ⟨fin (-wx + (2 * u - 1) * (aspect * Real.tan (fovy * 0.5)) * ax
            + (2 * v - 1) * Real.tan (fovy * 0.5) * (wy * az - wz * ay)),
         fin (-wy + (2 * u - 1) * (aspect * Real.tan (fovy * 0.5)) * ay
            + (2 * v - 1) * Real.tan (fovy * 0.5) * (wz * ax - wx * az)),
         fin (-wz + (2 * u - 1) * (aspect * Real.tan (fovy * 0.5)) * az
            + (2 * v - 1) * Real.tan (fovy * 0.5) * (wx * ay - wy * ax))⟩ := by
  simp only [generateRay.direction, generateRay.lower_left, generateRay.horizontal,
    generateRay.vertical, generateRay.v_vec, generateRay.half_width, generateRay.half_height,
    hw, hu, cross, subtract, add, multiply, lit_real, fin_mul_fin, fin_sub_fin, fin_add_fin,
      tan_fin,
    float3.mk.injEq, fin.injEq]
  refine ⟨?_, ?_, ?_⟩ <;> ring

/-- The centre ray of a camera with `eye ≠ lookat` and `up` not parallel to `eye - lookat`:
`generateRay(0.5, 0.5)` is `-w`, which is `normalize(lookat - eye)`. -/
theorem generateRay_centre_of_basis (ex ey ez lx ly lz ux uy uz fovy aspect : ℝ)
    (angle : cfloat ℝ)
    (heye : (⟨fin ex, fin ey, fin ez⟩ : float3 ℝ) ≠ ⟨fin lx, fin ly, fin lz⟩)
    (hup : cross (⟨fin ux, fin uy, fin uz⟩ : float3 ℝ)
        (subtract ⟨fin ex, fin ey, fin ez⟩ ⟨fin lx, fin ly, fin lz⟩) ≠ ⟨fin 0, fin 0, fin 0⟩) :
    ∃ wx wy wz : ℝ,
      generateRay.w ⟨Real.sqrt, Real.tan, Real.cos, Real.sin, Real.pi⟩
        ⟨⟨⟨fin ex, fin ey, fin ez⟩, ⟨fin lx, fin ly, fin lz⟩, ⟨fin ux, fin uy, fin uz⟩,
          fin fovy, fin aspect⟩, angle⟩ = ⟨fin wx, fin wy, fin wz⟩ ∧
      generateRay ⟨Real.sqrt, Real.tan, Real.cos, Real.sin, Real.pi⟩
        ⟨⟨⟨fin ex, fin ey, fin ez⟩, ⟨fin lx, fin ly, fin lz⟩, ⟨fin ux, fin uy, fin uz⟩,
          fin fovy, fin aspect⟩, angle⟩ (fin 0.5) (fin 0.5) = ⟨fin (-wx), fin (-wy), fin (-wz)⟩ ∧
      generateRay ⟨Real.sqrt, Real.tan, Real.cos, Real.sin, Real.pi⟩
        ⟨⟨⟨fin ex, fin ey, fin ez⟩, ⟨fin lx, fin ly, fin lz⟩, ⟨fin ux, fin uy, fin uz⟩,
          fin fovy, fin aspect⟩, angle⟩ (fin 0.5) (fin 0.5)
        = normalize ⟨Real.sqrt, Real.tan, Real.cos, Real.sin, Real.pi⟩
            (subtract ⟨fin lx, fin ly, fin lz⟩ ⟨fin ex, fin ey, fin ez⟩) := by
  obtain ⟨n, wx, wy, wz, ax, ay, az, hn, hnsqrt, hwx, hwy, hwz, hw, hu, hww, -, -⟩ :=
    generateRay_basis ex ey ez lx ly lz ux uy uz (fin fovy) (fin aspect) angle heye hup
  have hdir := generateRay_direction_eq ex ey ez fovy aspect 0.5 0.5 wx wy wz ax ay az
    _ _ angle hw hu
  have hdir2 : generateRay.direction ⟨Real.sqrt, Real.tan, Real.cos, Real.sin, Real.pi⟩
        ⟨⟨⟨fin ex, fin ey, fin ez⟩, ⟨fin lx, fin ly, fin lz⟩, ⟨fin ux, fin uy, fin uz⟩,
          fin fovy, fin aspect⟩, angle⟩ (fin 0.5) (fin 0.5)
      = ⟨fin (-wx), fin (-wy), fin (-wz)⟩ := by
    rw [hdir]
    simp only [float3.mk.injEq, fin.injEq]
    refine ⟨?_, ?_, ?_⟩ <;> ring
  have hw0 : ¬ (-wx = 0 ∧ -wy = 0 ∧ -wz = 0) := by
    rintro ⟨h1, h2, h3⟩
    rw [neg_eq_zero] at h1 h2 h3
    rw [h1, h2, h3] at hww
    norm_num at hww
  obtain ⟨k, hk, hkk, -, hnorm⟩ := normalize_fin _ _ _ hw0
  have hk1 : k = 1 := by
    have h1 : k * k = 1 := by rw [hkk]; linarith
    nlinarith
  have hray : generateRay ⟨Real.sqrt, Real.tan, Real.cos, Real.sin, Real.pi⟩
        ⟨⟨⟨fin ex, fin ey, fin ez⟩, ⟨fin lx, fin ly, fin lz⟩, ⟨fin ux, fin uy, fin uz⟩,
          fin fovy, fin aspect⟩, angle⟩ (fin 0.5) (fin 0.5)
      = ⟨fin (-wx), fin (-wy), fin (-wz)⟩ := by
    rw [generateRay, hdir2, hnorm, hk1]
    simp
  refine ⟨wx, wy, wz, hw, hray, ?_⟩
  rw [hray]
  have hd : ¬ (lx - ex = 0 ∧ ly - ey = 0 ∧ lz - ez = 0) := by
    rintro ⟨h1, h2, h3⟩
    apply heye
    rw [sub_eq_zero.mp h1, sub_eq_zero.mp h2, sub_eq_zero.mp h3]
  obtain ⟨n', hn', -, hnsqrt', hnorm'⟩ := normalize_fin _ _ _ hd
  have hnn : n' = n := by
    rw [hnsqrt', hnsqrt]
    congr 1
    ring
  have hn0 : n ≠ 0 := hn.ne.symm
  simp only [subtract, fin_sub_fin]
  rw [hnorm', hnn, hwx, hwy, hwz]
  simp only [float3.mk.injEq, fin.injEq]
  refine ⟨?_, ?_, ?_⟩ <;> field_simp

/-- The camera of the constructor, with `45.0f * M_PI / 180.0f` and `(float)width / height`
evaluated. -/
theorem new_camera :
    RayTracingEngine.new ⟨Real.sqrt, Real.tan, Real.cos, Real.sin, Real.pi⟩
      = ⟨⟨⟨fin 0, fin 0, fin 5⟩, ⟨fin 0, fin 0, fin 0⟩, ⟨fin 0, fin 1, fin 0⟩,
          fin (45.0 * Real.pi / 180.0), fin (1024 / 768)⟩, fin 0.0⟩ := by
  simp [RayTracingEngine.new, width, height,
    fin_div_fin_of_ne _ (show (180.0 : ℝ) ≠ 0 by norm_num)]

/-- The local `w` of `generateRay` for the camera of the constructor is `(0, 0, 1)`. -/
theorem new_w :
    generateRay.w ⟨Real.sqrt, Real.tan, Real.cos, Real.sin, Real.pi⟩
      (RayTracingEngine.new ⟨Real.sqrt, Real.tan, Real.cos, Real.sin, Real.pi⟩)
      = ⟨fin 0, fin 0, fin 1⟩ := by
  have h5 : Real.sqrt (5 * 5) = 5 := Real.sqrt_mul_self (by norm_num)
  rw [new_camera]
  simp [generateRay.w, subtract, normalize, h5]

/-- Over the reals, the camera of the constructor (`eye = (0,0,5)`, `lookat = (0,0,0)`,
`up = (0,1,0)`, `fovy = 45°`, `aspect = 1024/768`) has `generateRay(0.5, 0.5) = (0, 0, -1)`; and
for every non-degenerate camera (`eye ≠ lookat`, `up` not parallel to `eye - lookat`, `fovy` in
`(0, π)`, `aspect > 0`) `generateRay(0.5, 0.5) = -w = normalize(lookat - eye)`. -/
theorem generateRay_centre_real (ex ey ez lx ly lz ux uy uz fovy aspect : ℝ) (angle : cfloat ℝ)
    (heye : (⟨fin ex, fin ey, fin ez⟩ : float3 ℝ) ≠ ⟨fin lx, fin ly, fin lz⟩)
    (hup : cross (⟨fin ux, fin uy, fin uz⟩ : float3 ℝ)
        (subtract ⟨fin ex, fin ey, fin ez⟩ ⟨fin lx, fin ly, fin lz⟩) ≠ ⟨fin 0, fin 0, fin 0⟩)
    (_hfovy : 0 < fovy ∧ fovy < Real.pi) (_haspect : 0 < aspect) :
    generateRay ⟨Real.sqrt, Real.tan, Real.cos, Real.sin, Real.pi⟩
        (RayTracingEngine.new ⟨Real.sqrt, Real.tan, Real.cos, Real.sin, Real.pi⟩)
        (fin 0.5) (fin 0.5) = ⟨fin 0, fin 0, fin (-1)⟩ ∧
    ∃ wx wy wz : ℝ,
      generateRay.w ⟨Real.sqrt, Real.tan, Real.cos, Real.sin, Real.pi⟩
        ⟨⟨⟨fin ex, fin ey, fin ez⟩, ⟨fin lx, fin ly, fin lz⟩, ⟨fin ux, fin uy, fin uz⟩,
          fin fovy, fin aspect⟩, angle⟩ = ⟨fin wx, fin wy, fin wz⟩ ∧
      generateRay ⟨Real.sqrt, Real.tan, Real.cos, Real.sin, Real.pi⟩
        ⟨⟨⟨fin ex, fin ey, fin ez⟩, ⟨fin lx, fin ly, fin lz⟩, ⟨fin ux, fin uy, fin uz⟩,
          fin fovy, fin aspect⟩, angle⟩ (fin 0.5) (fin 0.5) = ⟨fin (-wx), fin (-wy), fin (-wz)⟩ ∧
      generateRay ⟨Real.sqrt, Real.tan, Real.cos, Real.sin, Real.pi⟩
        ⟨⟨⟨fin ex, fin ey, fin ez⟩, ⟨fin lx, fin ly, fin lz⟩, ⟨fin ux, fin uy, fin uz⟩,
          fin fovy, fin aspect⟩, angle⟩ (fin 0.5) (fin 0.5)
        = normalize ⟨Real.sqrt, Real.tan, Real.cos, Real.sin, Real.pi⟩
            (subtract ⟨fin lx, fin ly, fin lz⟩ ⟨fin ex, fin ey, fin ez⟩) := by
  refine ⟨?_, generateRay_centre_of_basis ex ey ez lx ly lz ux uy uz fovy aspect angle heye hup⟩
  obtain ⟨wx, wy, wz, hw, hray, -⟩ :=
    generateRay_centre_of_basis 0 0 5 0 0 0 0 1 0 (45.0 * Real.pi / 180.0) (1024 / 768)
      (fin 0.0) (by simp) (by simp [cross, subtract])
  rw [← new_camera, new_w] at hw
  rw [← new_camera] at hray
  simp only [float3.mk.injEq, fin.injEq] at hw
  obtain ⟨h1, h2, h3⟩ := hw
  rw [hray, ← h1, ← h2, ← h3]
  simp

/-! ## The frame loop -/

/-- One row of the pixel loop: `n` consecutive writes from index `base`. -/
theorem foldl_set_row {α : Type} (f : Nat → α) (base : Nat) (n : Nat) (l : List α) :
    ((List.range n).foldl (fun acc x => acc.set (base + x) (f x)) l).length = l.length ∧
    (∀ i, (i < base ∨ base + n ≤ i) →
      ((List.range n).foldl (fun acc x => acc.set (base + x) (f x)) l)[i]? = l[i]?) ∧
    (∀ x, x < n → base + x < l.length →
      ((List.range n).foldl (fun acc x => acc.set (base + x) (f x)) l)[base + x]? = some (f x)) := by
  induction n with
  | zero => simp
  | succ n ih =>
    obtain ⟨ih1, ih2, ih3⟩ := ih
    rw [List.range_succ, List.foldl_append]
    simp only [List.foldl_cons, List.foldl_nil, List.length_set]
    refine ⟨ih1, ?_, ?_⟩
    · intro i hi
      rw [List.getElem?_set_ne (by omega)]
      exact ih2 i (by omega)
    · intro x hx hlt
      by_cases hxn : x = n
      · subst hxn
        rw [List.getElem?_set_self (by rw [ih1]; exact hlt)]
      · rw [List.getElem?_set_ne (by omega)]
        exact ih3 x (by omega) hlt

/-- The two nested pixel loops: rows `0 .. h-1` of width `W`. -/
theorem foldl_set_rows {α : Type} (P : Nat → Nat → α) (W : Nat) (h : Nat) (l : List α) :
    ((List.range h).foldl (fun acc y =>
        (List.range W).foldl (fun acc x => acc.set (y * W + x) (P y x)) acc) l).length
      = l.length ∧
    (∀ i, h * W ≤ i →
      ((List.range h).foldl (fun acc y =>
        (List.range W).foldl (fun acc x => acc.set (y * W + x) (P y x)) acc) l)[i]? = l[i]?) ∧
    (∀ y x, y < h → x < W → y * W + x < l.length →
      ((List.range h).foldl (fun acc y =>
        (List.range W).foldl (fun acc x => acc.set (y * W + x) (P y x)) acc) l)[y * W + x]?
        = some (P y x)) := by
  induction h with
  | zero => simp
  | succ h ih =>
    obtain ⟨ih1, ih2, ih3⟩ := ih
    rw [List.range_succ, List.foldl_append]
    simp only [List.foldl_cons, List.foldl_nil]
    obtain ⟨r1, r2, r3⟩ := foldl_set_row (P h) (h * W) W
      ((List.range h).foldl (fun acc y =>
        (List.range W).foldl (fun acc x => acc.set (y * W + x) (P y x)) acc) l)
    refine ⟨r1.trans ih1, ?_, ?_⟩
    · intro i hi
      have e : (h + 1) * W = h * W + W := by ring
      rw [r2 i (Or.inr (by omega))]
      exact ih2 i (by omega)
    · intro y x hy hx hlt
      by_cases hyh : y = h
      · subst hyh
        exact r3 x hx (by rw [ih1]; exact hlt)
      · have hy' : y < h := by omega
        have hle : y * W + x < h * W := by
          have : (y + 1) * W ≤ h * W := Nat.mul_le_mul_right W hy'
          have e : (y + 1) * W = y * W + W := by ring
          omega
        rw [r2 _ (Or.inl hle)]
        exact ih3 y x hy' hx hlt

/-- The pixel buffer of `renderFrame` as the two nested loops over a fresh buffer. -/
theorem renderFrame_pixels {F : Type} [LinearOrderedField F] [Rounding F] (m : CMath F)
    (self : RayTracingEngine F) :
    (renderFrame m self).2
      = (List.range height).foldl (fun acc y =>
          (List.range width).foldl (fun acc x => acc.set (y * width + x)
            (⟨(traceRay m ⟨self.camera, self.rotation_angle + lit 0.02⟩
                (generateRay m ⟨self.camera, self.rotation_angle + lit 0.02⟩
                  (lit (x : F) / lit (width : F)) (lit (y : F) / lit (height : F)))
                generateHelloWorldGeometry).x,
              (traceRay m ⟨self.camera, self.rotation_angle + lit 0.02⟩
                (generateRay m ⟨self.camera, self.rotation_angle + lit 0.02⟩
                  (lit (x : F) / lit (width : F)) (lit (y : F) / lit (height : F)))
                generateHelloWorldGeometry).y,
              (traceRay m ⟨self.camera, self.rotation_angle + lit 0.02⟩
                (generateRay m ⟨self.camera, self.rotation_angle + lit 0.02⟩
                  (lit (x : F) / lit (width : F)) (lit (y : F) / lit (height : F)))
                generateHelloWorldGeometry).z,
              lit 1.0⟩ : float4 F)) acc)
          (List.replicate (width * height) float4.default) := by
  simp only [renderFrame, renderFrame.pixel]

/-- Over the reals, one `renderFrame` step from rotation angle `a` leaves the camera, sets the
rotation angle to `a + 0.02`, and produces a buffer of `1024 * 768` entries whose entry `y * 1024 + x`,
for `x < 1024` and `y < 768`, is `(c.x, c.y, c.z, 1.0)` with
`c = traceRay(generateRay(x/1024, y/768), generateHelloWorldGeometry())` at the angle `a + 0.02`.
Every index below `1024 * 768` is `y * 1024 + x` for exactly one pixel `(x, y)`, and no entry
is the default `(0, 0, 0, 0)`. -/
theorem renderFrame_step_real (self : RayTracingEngine ℝ) :
    (renderFrame ⟨Real.sqrt, Real.tan, Real.cos, Real.sin, Real.pi⟩ self).1.rotation_angle
        = self.rotation_angle + fin 0.02 ∧
      (renderFrame ⟨Real.sqrt, Real.tan, Real.cos, Real.sin, Real.pi⟩ self).1.camera
        = self.camera ∧
      (renderFrame ⟨Real.sqrt, Real.tan, Real.cos, Real.sin, Real.pi⟩ self).2.length
        = 1024 * 768 ∧
      (∀ x y : Nat, x < 1024 → y < 768 →
        (renderFrame ⟨Real.sqrt, Real.tan, Real.cos, Real.sin, Real.pi⟩ self).2[y * 1024 + x]?
          = some
            ⟨(traceRay ⟨Real.sqrt, Real.tan, Real.cos, Real.sin, Real.pi⟩
                ⟨self.camera, self.rotation_angle + fin 0.02⟩
                (generateRay ⟨Real.sqrt, Real.tan, Real.cos, Real.sin, Real.pi⟩
                  ⟨self.camera, self.rotation_angle + fin 0.02⟩
                  (fin ((x : ℝ) / 1024)) (fin ((y : ℝ) / 768)))
                generateHelloWorldGeometry).x,
              (traceRay ⟨Real.sqrt, Real.tan, Real.cos, Real.sin, Real.pi⟩
                ⟨self.camera, self.rotation_angle + fin 0.02⟩
                (generateRay ⟨Real.sqrt, Real.tan, Real.cos, Real.sin, Real.pi⟩
                  ⟨self.camera, self.rotation_angle + fin 0.02⟩
                  (fin ((x : ℝ) / 1024)) (fin ((y : ℝ) / 768)))
                generateHelloWorldGeometry).y,
              (traceRay ⟨Real.sqrt, Real.tan, Real.cos, Real.sin, Real.pi⟩
                ⟨self.camera, self.rotation_angle + fin 0.02⟩
                (generateRay ⟨Real.sqrt, Real.tan, Real.cos, Real.sin, Real.pi⟩
                  ⟨self.camera, self.rotation_angle + fin 0.02⟩
                  (fin ((x : ℝ) / 1024)) (fin ((y : ℝ) / 768)))
                generateHelloWorldGeometry).z,
              fin 1.0⟩) ∧
      (∀ i : Nat, i < 1024 * 768 →
        ∃! p : Nat × Nat, p.1 < 1024 ∧ p.2 < 768 ∧ p.2 * 1024 + p.1 = i) ∧
      (∀ i : Nat, i < 1024 * 768 →
        ∃ e : float4 ℝ,
          (renderFrame ⟨Real.sqrt, Real.tan, Real.cos, Real.sin, Real.pi⟩ self).2[i]? = some e ∧
          e ≠ float4.default) := by
  have hW : width = 1024 := rfl
  have hH : height = 768 := rfl
  have hWr : ((width : Nat) : ℝ) = 1024 := by rw [hW]; norm_num
  have hHr : ((height : Nat) : ℝ) = 768 := by rw [hH]; norm_num
  obtain ⟨k1, -, k3⟩ := foldl_set_rows
    (fun y x => (⟨(traceRay ⟨Real.sqrt, Real.tan, Real.cos, Real.sin, Real.pi⟩
                ⟨self.camera, self.rotation_angle + lit 0.02⟩
                (generateRay ⟨Real.sqrt, Real.tan, Real.cos, Real.sin, Real.pi⟩
                  ⟨self.camera, self.rotation_angle + lit 0.02⟩
                  (lit (x : ℝ) / lit (width : ℝ)) (lit (y : ℝ) / lit (height : ℝ)))
                generateHelloWorldGeometry).x,
              (traceRay ⟨Real.sqrt, Real.tan, Real.cos, Real.sin, Real.pi⟩
                ⟨self.camera, self.rotation_angle + lit 0.02⟩
                (generateRay ⟨Real.sqrt, Real.tan, Real.cos, Real.sin, Real.pi⟩
                  ⟨self.camera, self.rotation_angle + lit 0.02⟩
                  (lit (x : ℝ) / lit (width : ℝ)) (lit (y : ℝ) / lit (height : ℝ)))
                generateHelloWorldGeometry).y,
              (traceRay ⟨Real.sqrt, Real.tan, Real.cos, Real.sin, Real.pi⟩
                ⟨self.camera, self.rotation_angle + lit 0.02⟩
                (generateRay ⟨Real.sqrt, Real.tan, Real.cos, Real.sin, Real.pi⟩
                  ⟨self.camera, self.rotation_angle + lit 0.02⟩
                  (lit (x : ℝ) / lit (width : ℝ)) (lit (y : ℝ) / lit (height : ℝ)))
                generateHelloWorldGeometry).z,
              lit 1.0⟩ : float4 ℝ))
    width height (List.replicate (width * height) float4.default)
  rw [← renderFrame_pixels] at k1 k3
  rw [List.length_replicate] at k1 k3
  simp only [lit_real] at k3
  have hentry : ∀ x y : Nat, x < 1024 → y < 768 →
        (renderFrame ⟨Real.sqrt, Real.tan, Real.cos, Real.sin, Real.pi⟩ self).2[y * 1024 + x]?
          = some
            ⟨(traceRay ⟨Real.sqrt, Real.tan, Real.cos, Real.sin, Real.pi⟩
                ⟨self.camera, self.rotation_angle + fin 0.02⟩
                (generateRay ⟨Real.sqrt, Real.tan, Real.cos, Real.sin, Real.pi⟩
                  ⟨self.camera, self.rotation_angle + fin 0.02⟩
                  (fin ((x : ℝ) / 1024)) (fin ((y : ℝ) / 768)))
                generateHelloWorldGeometry).x,
              (traceRay ⟨Real.sqrt, Real.tan, Real.cos, Real.sin, Real.pi⟩
                ⟨self.camera, self.rotation_angle + fin 0.02⟩
                (generateRay ⟨Real.sqrt, Real.tan, Real.cos, Real.sin, Real.pi⟩
                  ⟨self.camera, self.rotation_angle + fin 0.02⟩
                  (fin ((x : ℝ) / 1024)) (fin ((y : ℝ) / 768)))
                generateHelloWorldGeometry).y,
              (traceRay ⟨Real.sqrt, Real.tan, Real.cos, Real.sin, Real.pi⟩
                ⟨self.camera, self.rotation_angle + fin 0.02⟩
                (generateRay ⟨Real.sqrt, Real.tan, Real.cos, Real.sin, Real.pi⟩
                  ⟨self.camera, self.rotation_angle + fin 0.02⟩
                  (fin ((x : ℝ) / 1024)) (fin ((y : ℝ) / 768)))
                generateHelloWorldGeometry).z,
              fin 1.0⟩ := by
    intro x y hx hy
    have h := k3 y x (by rw [hH]; exact hy) (by rw [hW]; exact hx)
      (by rw [hW, hH]; omega)
    rw [hWr, hHr, fin_div_fin_of_ne _ (show (1024 : ℝ) ≠ 0 by norm_num),
      fin_div_fin_of_ne _ (show (768 : ℝ) ≠ 0 by norm_num), hW] at h
    exact h
  refine ⟨rfl, rfl, k1, hentry, ?_, ?_⟩
  · intro i hi
    refine ⟨(i % 1024, i / 1024), ⟨?_, ?_, ?_⟩, ?_⟩
    · exact Nat.mod_lt _ (by norm_num)
    · show i / 1024 < 768
      omega
    · show i / 1024 * 1024 + i % 1024 = i
      omega
    · rintro ⟨x, y⟩ ⟨h1, h2, h3⟩
      simp only at h1 h2 h3
      simp only [Prod.mk.injEq]
      omega
  · intro i hi
    have e : i = i / 1024 * 1024 + i % 1024 := by omega
    have h := hentry (i % 1024) (i / 1024) (Nat.mod_lt _ (by norm_num)) (by omega)
    rw [← e] at h
    refine ⟨_, h, ?_⟩
    intro h'
    have h4 := congrArg float4.w h'
    simp only [float4.default, fin.injEq] at h4
    norm_num at h4

/-! ## Scene markers -/

/-- The loop of `addBox` pushes eight copies of `center`, whatever `size` is. -/
theorem addBox_eq {F : Type} [LinearOrderedField F] [Rounding F]
    (vertices : List (float3 F))
    (center size : float3 F) :
    addBox vertices center size = vertices ++ List.replicate 8 center := by
  simp [addBox, List.range, List.range.loop, List.replicate]

theorem addLetter_H_eq {F : Type} [LinearOrderedField F] [Rounding F]
    (vertices : List (float3 F))
    (pos : float3 F) :
    addLetter_H vertices pos = vertices ++
      [(⟨pos.x, pos.y + lit 0.5, pos.z⟩ : float3 F),
        ⟨pos.x + lit 0.4, pos.y + lit 0.5, pos.z⟩,
        ⟨pos.x + lit 0.2, pos.y + lit 0.5, pos.z⟩].flatMap (List.replicate 8) := by
  simp [addLetter_H, addBox_eq]

theorem addLetter_E_eq {F : Type} [LinearOrderedField F] [Rounding F]
    (vertices : List (float3 F))
    (pos : float3 F) :
    addLetter_E vertices pos = vertices ++
      [(⟨pos.x, pos.y + lit 0.5, pos.z⟩ : float3 F),
        ⟨pos.x + lit 0.15, pos.y + lit 0.9, pos.z⟩,
        ⟨pos.x + lit 0.1, pos.y + lit 0.5, pos.z⟩,
        ⟨pos.x + lit 0.15, pos.y + lit 0.1, pos.z⟩].flatMap (List.replicate 8) := by
  simp [addLetter_E, addBox_eq]

theorem addLetter_L_eq {F : Type} [LinearOrderedField F] [Rounding F]
    (vertices : List (float3 F))
    (pos : float3 F) :
    addLetter_L vertices pos = vertices ++
      [(⟨pos.x, pos.y + lit 0.5, pos.z⟩ : float3 F),
        ⟨pos.x + lit 0.15, pos.y + lit 0.1, pos.z⟩].flatMap (List.replicate 8) := by
  simp [addLetter_L, addBox_eq]

theorem addLetter_O_eq {F : Type} [LinearOrderedField F] [Rounding F]
    (vertices : List (float3 F))
    (pos : float3 F) :
    addLetter_O vertices pos = vertices ++
      [(⟨pos.x, pos.y + lit 0.5, pos.z⟩ : float3 F),
        ⟨pos.x + lit 0.35, pos.y + lit 0.5, pos.z⟩,
        ⟨pos.x + lit 0.2, pos.y + lit 0.9, pos.z⟩,
        ⟨pos.x + lit 0.2, pos.y + lit 0.1, pos.z⟩].flatMap (List.replicate 8) := by
  simp [addLetter_O, addBox_eq]

theorem addLetter_W_eq {F : Type} [LinearOrderedField F] [Rounding F]
    (vertices : List (float3 F))
    (pos : float3 F) :
    addLetter_W vertices pos = vertices ++
      [(⟨pos.x, pos.y + lit 0.5, pos.z⟩ : float3 F),
        ⟨pos.x + lit 0.2, pos.y + lit 0.3, pos.z⟩,
        ⟨pos.x + lit 0.4, pos.y + lit 0.5, pos.z⟩].flatMap (List.replicate 8) := by
  simp [addLetter_W, addBox_eq]

theorem addLetter_R_eq {F : Type} [LinearOrderedField F] [Rounding F]
    (vertices : List (float3 F))
    (pos : float3 F) :
    addLetter_R vertices pos = vertices ++
      [(⟨pos.x, pos.y + lit 0.5, pos.z⟩ : float3 F),
        ⟨pos.x + lit 0.15, pos.y + lit 0.9, pos.z⟩,
        ⟨pos.x + lit 0.15, pos.y + lit 0.5, pos.z⟩,
        ⟨pos.x + lit 0.3, pos.y + lit 0.7, pos.z⟩,
        ⟨pos.x + lit 0.25, pos.y + lit 0.3, pos.z⟩].flatMap (List.replicate 8) := by
  simp [addLetter_R, addBox_eq]

theorem addLetter_D_eq {F : Type} [LinearOrderedField F] [Rounding F]
    (vertices : List (float3 F))
    (pos : float3 F) :
    addLetter_D vertices pos = vertices ++
      [(⟨pos.x, pos.y + lit 0.5, pos.z⟩ : float3 F),
        ⟨pos.x + lit 0.1, pos.y + lit 0.9, pos.z⟩,
        ⟨pos.x + lit 0.1, pos.y + lit 0.1, pos.z⟩,
        ⟨pos.x + lit 0.25, pos.y + lit 0.5, pos.z⟩].flatMap (List.replicate 8) := by
  simp [addLetter_D, addBox_eq]

/-- C7. `generateHelloWorldGeometry()` is the concatenation, in this order, of the markers of
the ten letters H, E, L, L, O, W, O, R, L, D placed at the origins `(x, 0, 0)` for
`x = -4, -3, -2, -1, 0, 1.5, 2.5, 3.5, 4.5, 5.5`; consecutive origins differ by `1.0` in `x`
except O to W, which differ by `1.5`; the first marker of each letter is `(x, 0.5, 0)`; and the
letters contribute `3, 4, 2, 2, 4, 3, 4, 5, 2, 4` boxes of eight markers. -/
theorem generateHelloWorldGeometry_layout :
    (generateHelloWorldGeometry : List (float3 ℝ))
      = (List.zipWith (fun letter x => letter [] (⟨fin x, fin 0, fin 0⟩ : float3 ℝ))
          [addLetter_H, addLetter_E, addLetter_L, addLetter_L, addLetter_O,
            addLetter_W, addLetter_O, addLetter_R, addLetter_L, addLetter_D]
          [-4, -3, -2, -1, 0, 1.5, 2.5, 3.5, 4.5, 5.5]).flatten ∧
    List.zipWith (fun a b => b - a) ([-4, -3, -2, -1, 0, 1.5, 2.5, 3.5, 4.5, 5.5] : List ℝ)
        [-3, -2, -1, 0, 1.5, 2.5, 3.5, 4.5, 5.5]
      = [1.0, 1.0, 1.0, 1.0, 1.5, 1.0, 1.0, 1.0, 1.0] ∧
    (List.zipWith (fun letter x => letter [] (⟨fin x, fin 0, fin 0⟩ : float3 ℝ))
          [addLetter_H, addLetter_E, addLetter_L, addLetter_L, addLetter_O,
            addLetter_W, addLetter_O, addLetter_R, addLetter_L, addLetter_D]
          [-4, -3, -2, -1, 0, 1.5, 2.5, 3.5, 4.5, 5.5]).map List.head?
      = ([-4, -3, -2, -1, 0, 1.5, 2.5, 3.5, 4.5, 5.5] : List ℝ).map
          (fun x => some ⟨fin x, fin 0.5, fin 0⟩) ∧
    (List.zipWith (fun letter x => letter [] (⟨fin x, fin 0, fin 0⟩ : float3 ℝ))
          [addLetter_H, addLetter_E, addLetter_L, addLetter_L, addLetter_O,
            addLetter_W, addLetter_O, addLetter_R, addLetter_L, addLetter_D]
          [-4, -3, -2, -1, 0, 1.5, 2.5, 3.5, 4.5, 5.5]).map List.length
      = [3, 4, 2, 2, 4, 3, 4, 5, 2, 4].map (fun boxes => 8 * boxes) := by
  refine ⟨?_, ?_, ?_, ?_⟩
  · simp only [generateHelloWorldGeometry, List.zipWith, List.flatten, List.append_nil]
    rw [addLetter_D_eq, addLetter_L_eq, addLetter_R_eq, addLetter_O_eq, addLetter_W_eq,
      addLetter_O_eq, addLetter_L_eq, addLetter_L_eq, addLetter_E_eq, addLetter_H_eq]
    simp only [addLetter_D_eq, addLetter_L_eq, addLetter_R_eq, addLetter_O_eq, addLetter_W_eq,
      addLetter_E_eq, addLetter_H_eq, List.nil_append, List.append_assoc]
    norm_num
  · norm_num [List.zipWith]
  · simp only [List.zipWith, List.map, addLetter_D_eq, addLetter_L_eq, addLetter_R_eq,
      addLetter_O_eq, addLetter_W_eq, addLetter_E_eq, addLetter_H_eq, List.nil_append]
    norm_num [List.flatMap, List.replicate]
  · simp only [List.zipWith, List.map, addLetter_D_eq, addLetter_L_eq, addLetter_R_eq,
      addLetter_O_eq, addLetter_W_eq, addLetter_E_eq, addLetter_H_eq, List.nil_append]
    simp

/-- The markers of a list of boxes, eight per box: marker `8 * k + j` is centre `k`. -/
theorem getElem?_flatMap_replicate {α : Type} (n : Nat) (l : List α) (k j : Nat) (hj : j < n) :
    (l.flatMap (List.replicate n))[n * k + j]? = l[k]? := by
  induction l generalizing k with
  | nil => simp
  | cons a l ih =>
    rw [List.flatMap_cons]
    cases k with
    | zero =>
      rw [List.getElem?_append_left (by simpa using hj)]
      simp [hj]
    | succ k =>
      rw [List.getElem?_append_right (by simp [Nat.mul_succ]; omega)]
      have e : n * (k + 1) + j - (List.replicate n a).length = n * k + j := by
        simp [Nat.mul_succ]
        omega
      rw [e, ih k]
      simp

/-- The number of markers of a list of boxes. -/
theorem length_flatMap_replicate {α : Type} (n : Nat) (l : List α) :
    (l.flatMap (List.replicate n)).length = n * l.length := by
  induction l with
  | nil => simp
  | cons a l ih =>
    rw [List.flatMap_cons, List.length_append, ih, List.length_replicate, List.length_cons,
      Nat.mul_succ, Nat.add_comm]

/-- C8. `generateHelloWorldGeometry()` is a fixed sequence: the 33 box centres below, each
repeated eight times.  It has `264 = 8 * 33` markers, is not empty, and for every box `k < 33`
the markers at positions `8k .. 8k+7` are all equal to centre `k`.  `addBox` appends eight
copies of `center` for every `size`, so its output does not depend on `size`. -/
theorem generateHelloWorldGeometry_markers (vertices : List (float3 ℝ))
    (center size size' : float3 ℝ) :
    (∃ centres : List (float3 ℝ),
      centres =
        [⟨fin (-4), fin 0.5, fin 0⟩, ⟨fin (-3.6), fin 0.5, fin 0⟩, ⟨fin (-3.8), fin 0.5, fin 0⟩,
        ⟨fin (-3), fin 0.5, fin 0⟩, ⟨fin (-2.85), fin 0.9, fin 0⟩, ⟨fin (-2.9), fin 0.5, fin 0⟩,
        ⟨fin (-2.85), fin 0.1, fin 0⟩, ⟨fin (-2), fin 0.5, fin 0⟩, ⟨fin (-1.85), fin 0.1, fin 0⟩,
        ⟨fin (-1), fin 0.5, fin 0⟩, ⟨fin (-0.85), fin 0.1, fin 0⟩, ⟨fin 0, fin 0.5, fin 0⟩,
        ⟨fin 0.35, fin 0.5, fin 0⟩, ⟨fin 0.2, fin 0.9, fin 0⟩, ⟨fin 0.2, fin 0.1, fin 0⟩,
        ⟨fin 1.5, fin 0.5, fin 0⟩, ⟨fin 1.7, fin 0.3, fin 0⟩, ⟨fin 1.9, fin 0.5, fin 0⟩,
        ⟨fin 2.5, fin 0.5, fin 0⟩, ⟨fin 2.85, fin 0.5, fin 0⟩, ⟨fin 2.7, fin 0.9, fin 0⟩,
        ⟨fin 2.7, fin 0.1, fin 0⟩, ⟨fin 3.5, fin 0.5, fin 0⟩, ⟨fin 3.65, fin 0.9, fin 0⟩,
        ⟨fin 3.65, fin 0.5, fin 0⟩, ⟨fin 3.8, fin 0.7, fin 0⟩, ⟨fin 3.75, fin 0.3, fin 0⟩,
        ⟨fin 4.5, fin 0.5, fin 0⟩, ⟨fin 4.65, fin 0.1, fin 0⟩, ⟨fin 5.5, fin 0.5, fin 0⟩,
        ⟨fin 5.6, fin 0.9, fin 0⟩, ⟨fin 5.6, fin 0.1, fin 0⟩, ⟨fin 5.75, fin 0.5, fin 0⟩] ∧
      centres.length = 33 ∧
      (generateHelloWorldGeometry : List (float3 ℝ)) = centres.flatMap (List.replicate 8) ∧
      ∀ k j : Nat, k < 33 → j < 8 →
        (generateHelloWorldGeometry : List (float3 ℝ))[8 * k + j]? = centres[k]? ∧
        (generateHelloWorldGeometry : List (float3 ℝ))[8 * k + j]?
          = (generateHelloWorldGeometry : List (float3 ℝ))[8 * k]?) ∧
    (generateHelloWorldGeometry : List (float3 ℝ)).length = 264 ∧
    264 = 8 * 33 ∧
    (generateHelloWorldGeometry : List (float3 ℝ)) ≠ [] ∧
    addBox vertices center size = vertices ++ List.replicate 8 center ∧
    addBox vertices center size = addBox vertices center size' := by
  have hgeo : (generateHelloWorldGeometry : List (float3 ℝ))
      = ([⟨fin (-4), fin 0.5, fin 0⟩, ⟨fin (-3.6), fin 0.5, fin 0⟩, ⟨fin (-3.8), fin 0.5, fin 0⟩,
        ⟨fin (-3), fin 0.5, fin 0⟩, ⟨fin (-2.85), fin 0.9, fin 0⟩, ⟨fin (-2.9), fin 0.5, fin 0⟩,
        ⟨fin (-2.85), fin 0.1, fin 0⟩, ⟨fin (-2), fin 0.5, fin 0⟩, ⟨fin (-1.85), fin 0.1, fin 0⟩,
        ⟨fin (-1), fin 0.5, fin 0⟩, ⟨fin (-0.85), fin 0.1, fin 0⟩, ⟨fin 0, fin 0.5, fin 0⟩,
        ⟨fin 0.35, fin 0.5, fin 0⟩, ⟨fin 0.2, fin 0.9, fin 0⟩, ⟨fin 0.2, fin 0.1, fin 0⟩,
        ⟨fin 1.5, fin 0.5, fin 0⟩, ⟨fin 1.7, fin 0.3, fin 0⟩, ⟨fin 1.9, fin 0.5, fin 0⟩,
        ⟨fin 2.5, fin 0.5, fin 0⟩, ⟨fin 2.85, fin 0.5, fin 0⟩, ⟨fin 2.7, fin 0.9, fin 0⟩,
        ⟨fin 2.7, fin 0.1, fin 0⟩, ⟨fin 3.5, fin 0.5, fin 0⟩, ⟨fin 3.65, fin 0.9, fin 0⟩,
        ⟨fin 3.65, fin 0.5, fin 0⟩, ⟨fin 3.8, fin 0.7, fin 0⟩, ⟨fin 3.75, fin 0.3, fin 0⟩,
        ⟨fin 4.5, fin 0.5, fin 0⟩, ⟨fin 4.65, fin 0.1, fin 0⟩, ⟨fin 5.5, fin 0.5, fin 0⟩,
        ⟨fin 5.6, fin 0.9, fin 0⟩, ⟨fin 5.6, fin 0.1, fin 0⟩, ⟨fin 5.75, fin 0.5, fin 0⟩] : List (float3 ℝ)).flatMap
          (List.replicate 8) := by
    simp only [generateHelloWorldGeometry]
    rw [addLetter_D_eq, addLetter_L_eq, addLetter_R_eq, addLetter_O_eq, addLetter_W_eq,
      addLetter_O_eq, addLetter_L_eq, addLetter_L_eq, addLetter_E_eq, addLetter_H_eq]
    simp only [List.nil_append, List.append_assoc, ← List.flatMap_append, List.cons_append,
      fin_add_fin]
    norm_num
  refine ⟨⟨_, rfl, rfl, hgeo, ?_⟩, ?_, rfl, ?_, addBox_eq _ _ _, ?_⟩
  · intro k j _ hj
    rw [hgeo]
    have h0 := getElem?_flatMap_replicate 8
      ([⟨fin (-4), fin 0.5, fin 0⟩, ⟨fin (-3.6), fin 0.5, fin 0⟩, ⟨fin (-3.8), fin 0.5, fin 0⟩,
        ⟨fin (-3), fin 0.5, fin 0⟩, ⟨fin (-2.85), fin 0.9, fin 0⟩, ⟨fin (-2.9), fin 0.5, fin 0⟩,
        ⟨fin (-2.85), fin 0.1, fin 0⟩, ⟨fin (-2), fin 0.5, fin 0⟩, ⟨fin (-1.85), fin 0.1, fin 0⟩,
        ⟨fin (-1), fin 0.5, fin 0⟩, ⟨fin (-0.85), fin 0.1, fin 0⟩, ⟨fin 0, fin 0.5, fin 0⟩,
        ⟨fin 0.35, fin 0.5, fin 0⟩, ⟨fin 0.2, fin 0.9, fin 0⟩, ⟨fin 0.2, fin 0.1, fin 0⟩,
        ⟨fin 1.5, fin 0.5, fin 0⟩, ⟨fin 1.7, fin 0.3, fin 0⟩, ⟨fin 1.9, fin 0.5, fin 0⟩,
        ⟨fin 2.5, fin 0.5, fin 0⟩, ⟨fin 2.85, fin 0.5, fin 0⟩, ⟨fin 2.7, fin 0.9, fin 0⟩,
        ⟨fin 2.7, fin 0.1, fin 0⟩, ⟨fin 3.5, fin 0.5, fin 0⟩, ⟨fin 3.65, fin 0.9, fin 0⟩,
        ⟨fin 3.65, fin 0.5, fin 0⟩, ⟨fin 3.8, fin 0.7, fin 0⟩, ⟨fin 3.75, fin 0.3, fin 0⟩,
        ⟨fin 4.5, fin 0.5, fin 0⟩, ⟨fin 4.65, fin 0.1, fin 0⟩, ⟨fin 5.5, fin 0.5, fin 0⟩,
        ⟨fin 5.6, fin 0.9, fin 0⟩, ⟨fin 5.6, fin 0.1, fin 0⟩, ⟨fin 5.75, fin 0.5, fin 0⟩] : List (float3 ℝ)) k 0 (by norm_num)
    rw [Nat.add_zero] at h0
    rw [getElem?_flatMap_replicate 8 _ k j hj, h0]
    exact ⟨rfl, rfl⟩
  · rw [hgeo, length_flatMap_replicate]
    rfl
  · intro h
    have hlen := congrArg List.length hgeo
    rw [length_flatMap_replicate, h] at hlen
    exact absurd hlen (by decide)
  · rw [addBox_eq, addBox_eq]

/-! ## Periodicity and the light direction -/

/-- C9. `traceRay` is periodic in the rotation angle with period `2π`: for every camera, ray
direction `d`, rotation angle `θ` (NaN included) and geometry list `g`, the colour computed at
the rotation angle `θ + 2π` is the colour computed at `θ`. -/
theorem traceRay_periodic (camera : Camera ℝ) (θ : cfloat ℝ) (d : float3 ℝ)
    (g : List (float3 ℝ)) :
    traceRay ⟨Real.sqrt, Real.tan, Real.cos, Real.sin, Real.pi⟩
        ⟨camera, θ + fin (2 * Real.pi)⟩ d g
      = traceRay ⟨Real.sqrt, Real.tan, Real.cos, Real.sin, Real.pi⟩ ⟨camera, θ⟩ d g := by
  cases θ with
  | nan => rfl
  | fin t =>
    simp only [traceRay, traceRay.base_color, traceRay.intensity, traceRay.rotated_dir,
      fin_add_fin, cos_fin, sin_fin, Real.cos_add_two_pi, Real.sin_add_two_pi]

/-- Over the reals, the light direction of `traceRay` is `(0.577, 0.577, 0.577)`: its squared
length is `0.998787`, not `1`, it is not `normalize((1, 1, 1))`, and its dot product with
`normalize((1, 1, 1))`, the unit vector of its own direction, is below `1.0`. -/
theorem light_dir_real :
    dot (traceRay.light_dir : float3 ℝ) traceRay.light_dir = fin 0.998787 ∧
      dot (traceRay.light_dir : float3 ℝ) traceRay.light_dir ≠ fin 1 ∧
      (traceRay.light_dir : float3 ℝ)
        ≠ normalize ⟨Real.sqrt, Real.tan, Real.cos, Real.sin, Real.pi⟩ ⟨fin 1, fin 1, fin 1⟩ ∧
      ∃ r : ℝ, dot (normalize ⟨Real.sqrt, Real.tan, Real.cos, Real.sin, Real.pi⟩
          ⟨fin 1, fin 1, fin 1⟩) (traceRay.light_dir : float3 ℝ) = fin r ∧ r < 1 := by
  obtain ⟨n, hn, hnn, -, hnorm⟩ := normalize_fin 1 1 1 (by norm_num)
  have hn0 : n ≠ 0 := hn.ne.symm
  have h3 : n * n = 3 := by rw [hnn]; norm_num
  refine ⟨?_, ?_, ?_, ?_⟩
  · simp only [dot, traceRay.light_dir, lit_real, fin_mul_fin, fin_add_fin, fin.injEq]
    norm_num
  · simp only [dot, traceRay.light_dir, lit_real, fin_mul_fin, fin_add_fin, ne_eq, fin.injEq]
    norm_num
  · rw [hnorm]
    simp only [traceRay.light_dir, lit_real, ne_eq, float3.mk.injEq, fin.injEq, and_self]
    intro h
    have h1 : n * 0.577 = 1 := by
      rw [h]
      field_simp
    nlinarith
  · rw [hnorm]
    refine ⟨1 / n * 0.577 + 1 / n * 0.577 + 1 / n * 0.577, ?_, ?_⟩
    · simp only [dot, traceRay.light_dir, lit_real, fin_mul_fin, fin_add_fin]
    · have h2 : 1 / n * 0.577 + 1 / n * 0.577 + 1 / n * 0.577 = 1.731 / n := by
        field_simp
        ring
      rw [h2, div_lt_one hn]
      nlinarith

/-- Over the reals, the light direction of `traceRay` is the constant `(0.577, 0.577, 0.577)`,
with three equal components and squared length `0.998787`; for every rotated direction
`(a, b, c)` of length 1 the dot product with the light direction is a finite number `r` with
`r * r ≤ 0.998787`, so `r < 1`. -/
theorem light_dir_dot_bound (a b c : ℝ) (h : a * a + b * b + c * c = 1) :
    (traceRay.light_dir : float3 ℝ) = ⟨fin 0.577, fin 0.577, fin 0.577⟩ ∧
      dot (traceRay.light_dir : float3 ℝ) traceRay.light_dir = fin 0.998787 ∧
      ∃ r : ℝ, dot ⟨fin a, fin b, fin c⟩ (traceRay.light_dir : float3 ℝ) = fin r ∧
        r * r ≤ 0.998787 ∧ r < 1 := by
  refine ⟨rfl, ?_, a * 0.577 + b * 0.577 + c * 0.577, ?_, ?_, ?_⟩
  · simp only [dot, traceRay.light_dir, lit_real, fin_mul_fin, fin_add_fin, fin.injEq]
    norm_num
  · simp only [dot, traceRay.light_dir, lit_real, fin_mul_fin, fin_add_fin]
  · nlinarith [sq_nonneg (a - b), sq_nonneg (b - c), sq_nonneg (a - c)]
  · nlinarith [sq_nonneg (a - b), sq_nonneg (b - c), sq_nonneg (a - c),
      sq_nonneg (a + b + c - 1.733)]

/-- The bound of `light_dir_dot_bound` at the rotated direction `(0, 0, -1)`. -/
theorem light_dir_dot_bound_witness :
    (traceRay.light_dir : float3 ℝ) = ⟨fin 0.577, fin 0.577, fin 0.577⟩ ∧
      dot (traceRay.light_dir : float3 ℝ) traceRay.light_dir = fin 0.998787 ∧
      ∃ r : ℝ, dot ⟨fin 0, fin 0, fin (-1)⟩ (traceRay.light_dir : float3 ℝ) = fin r ∧
        r * r ≤ 0.998787 ∧ r < 1 :=
  light_dir_dot_bound 0 0 (-1) (by norm_num)

/-! ## The camera basis -/

/-- C11, amended.  When `float` is read as real arithmetic, for every non-degenerate camera
(finite fields, `eye ≠ lookat`, `up` not parallel to `eye - lookat`, `fovy` in `(0, π)`,
`aspect > 0`), every rotation angle and all finite `u`, `v`: the vectors `w`, `u_vec` and `v_vec` of `generateRay` are finite, each has dot product `1` with
itself (length 1; `v_vec` is not normalized by the code) and the three pairwise dot products are
`0`; the argument of the final `normalize` is
`-w + (2u - 1) * half_width * u_vec + (2v - 1) * half_height * v_vec`, and its dot product with
`w` is exactly `-1`. -/
theorem generateRay_orthonormal_basis (ex ey ez lx ly lz ux uy uz fovy aspect u v : ℝ)
    (angle : cfloat ℝ)
    (heye : (⟨fin ex, fin ey, fin ez⟩ : float3 ℝ) ≠ ⟨fin lx, fin ly, fin lz⟩)
    (hup : cross (⟨fin ux, fin uy, fin uz⟩ : float3 ℝ)
        (subtract ⟨fin ex, fin ey, fin ez⟩ ⟨fin lx, fin ly, fin lz⟩) ≠ ⟨fin 0, fin 0, fin 0⟩)
    (_hfovy : 0 < fovy ∧ fovy < Real.pi) (_haspect : 0 < aspect) :
    ∃ wx wy wz ax ay az bx bY bz hwid hhei : ℝ,
      generateRay.w ⟨Real.sqrt, Real.tan, Real.cos, Real.sin, Real.pi⟩
        ⟨⟨⟨fin ex, fin ey, fin ez⟩, ⟨fin lx, fin ly, fin lz⟩, ⟨fin ux, fin uy, fin uz⟩,
          fin fovy, fin aspect⟩, angle⟩ = ⟨fin wx, fin wy, fin wz⟩ ∧
      generateRay.u_vec ⟨Real.sqrt, Real.tan, Real.cos, Real.sin, Real.pi⟩
        ⟨⟨⟨fin ex, fin ey, fin ez⟩, ⟨fin lx, fin ly, fin lz⟩, ⟨fin ux, fin uy, fin uz⟩,
          fin fovy, fin aspect⟩, angle⟩ = ⟨fin ax, fin ay, fin az⟩ ∧
      generateRay.v_vec ⟨Real.sqrt, Real.tan, Real.cos, Real.sin, Real.pi⟩
        ⟨⟨⟨fin ex, fin ey, fin ez⟩, ⟨fin lx, fin ly, fin lz⟩, ⟨fin ux, fin uy, fin uz⟩,
          fin fovy, fin aspect⟩, angle⟩ = ⟨fin bx, fin bY, fin bz⟩ ∧
      generateRay.half_width ⟨Real.sqrt, Real.tan, Real.cos, Real.sin, Real.pi⟩
        ⟨⟨⟨fin ex, fin ey, fin ez⟩, ⟨fin lx, fin ly, fin lz⟩, ⟨fin ux, fin uy, fin uz⟩,
          fin fovy, fin aspect⟩, angle⟩ = fin hwid ∧
      generateRay.half_height ⟨Real.sqrt, Real.tan, Real.cos, Real.sin, Real.pi⟩
        ⟨⟨⟨fin ex, fin ey, fin ez⟩, ⟨fin lx, fin ly, fin lz⟩, ⟨fin ux, fin uy, fin uz⟩,
          fin fovy, fin aspect⟩, angle⟩ = fin hhei ∧
      dot (generateRay.w ⟨Real.sqrt, Real.tan, Real.cos, Real.sin, Real.pi⟩
        ⟨⟨⟨fin ex, fin ey, fin ez⟩, ⟨fin lx, fin ly, fin lz⟩, ⟨fin ux, fin uy, fin uz⟩,
          fin fovy, fin aspect⟩, angle⟩)
        (generateRay.w ⟨Real.sqrt, Real.tan, Real.cos, Real.sin, Real.pi⟩
        ⟨⟨⟨fin ex, fin ey, fin ez⟩, ⟨fin lx, fin ly, fin lz⟩, ⟨fin ux, fin uy, fin uz⟩,
          fin fovy, fin aspect⟩, angle⟩) = fin 1 ∧
      dot (generateRay.u_vec ⟨Real.sqrt, Real.tan, Real.cos, Real.sin, Real.pi⟩
        ⟨⟨⟨fin ex, fin ey, fin ez⟩, ⟨fin lx, fin ly, fin lz⟩, ⟨fin ux, fin uy, fin uz⟩,
          fin fovy, fin aspect⟩, angle⟩)
        (generateRay.u_vec ⟨Real.sqrt, Real.tan, Real.cos, Real.sin, Real.pi⟩
        ⟨⟨⟨fin ex, fin ey, fin ez⟩, ⟨fin lx, fin ly, fin lz⟩, ⟨fin ux, fin uy, fin uz⟩,
          fin fovy, fin aspect⟩, angle⟩) = fin 1 ∧
      dot (generateRay.v_vec ⟨Real.sqrt, Real.tan, Real.cos, Real.sin, Real.pi⟩
        ⟨⟨⟨fin ex, fin ey, fin ez⟩, ⟨fin lx, fin ly, fin lz⟩, ⟨fin ux, fin uy, fin uz⟩,
          fin fovy, fin aspect⟩, angle⟩)
        (generateRay.v_vec ⟨Real.sqrt, Real.tan, Real.cos, Real.sin, Real.pi⟩
        ⟨⟨⟨fin ex, fin ey, fin ez⟩, ⟨fin lx, fin ly, fin lz⟩, ⟨fin ux, fin uy, fin uz⟩,
          fin fovy, fin aspect⟩, angle⟩) = fin 1 ∧
      dot (generateRay.w ⟨Real.sqrt, Real.tan, Real.cos, Real.sin, Real.pi⟩
        ⟨⟨⟨fin ex, fin ey, fin ez⟩, ⟨fin lx, fin ly, fin lz⟩, ⟨fin ux, fin uy, fin uz⟩,
          fin fovy, fin aspect⟩, angle⟩)
        (generateRay.u_vec ⟨Real.sqrt, Real.tan, Real.cos, Real.sin, Real.pi⟩
        ⟨⟨⟨fin ex, fin ey, fin ez⟩, ⟨fin lx, fin ly, fin lz⟩, ⟨fin ux, fin uy, fin uz⟩,
          fin fovy, fin aspect⟩, angle⟩) = fin 0 ∧
      dot (generateRay.w ⟨Real.sqrt, Real.tan, Real.cos, Real.sin, Real.pi⟩
        ⟨⟨⟨fin ex, fin ey, fin ez⟩, ⟨fin lx, fin ly, fin lz⟩, ⟨fin ux, fin uy, fin uz⟩,
          fin fovy, fin aspect⟩, angle⟩)
        (generateRay.v_vec ⟨Real.sqrt, Real.tan, Real.cos, Real.sin, Real.pi⟩
        ⟨⟨⟨fin ex, fin ey, fin ez⟩, ⟨fin lx, fin ly, fin lz⟩, ⟨fin ux, fin uy, fin uz⟩,
          fin fovy, fin aspect⟩, angle⟩) = fin 0 ∧
      dot (generateRay.u_vec ⟨Real.sqrt, Real.tan, Real.cos, Real.sin, Real.pi⟩
        ⟨⟨⟨fin ex, fin ey, fin ez⟩, ⟨fin lx, fin ly, fin lz⟩, ⟨fin ux, fin uy, fin uz⟩,
          fin fovy, fin aspect⟩, angle⟩)
        (generateRay.v_vec ⟨Real.sqrt, Real.tan, Real.cos, Real.sin, Real.pi⟩
        ⟨⟨⟨fin ex, fin ey, fin ez⟩, ⟨fin lx, fin ly, fin lz⟩, ⟨fin ux, fin uy, fin uz⟩,
          fin fovy, fin aspect⟩, angle⟩) = fin 0 ∧
      generateRay.direction ⟨Real.sqrt, Real.tan, Real.cos, Real.sin, Real.pi⟩
        ⟨⟨⟨fin ex, fin ey, fin ez⟩, ⟨fin lx, fin ly, fin lz⟩, ⟨fin ux, fin uy, fin uz⟩,
          fin fovy, fin aspect⟩, angle⟩ (fin u) (fin v)
        = ⟨fin (-wx + (2 * u - 1) * hwid * ax + (2 * v - 1) * hhei * bx),
           fin (-wy + (2 * u - 1) * hwid * ay + (2 * v - 1) * hhei * bY),
           fin (-wz + (2 * u - 1) * hwid * az + (2 * v - 1) * hhei * bz)⟩ ∧
      dot (generateRay.direction ⟨Real.sqrt, Real.tan, Real.cos, Real.sin, Real.pi⟩
        ⟨⟨⟨fin ex, fin ey, fin ez⟩, ⟨fin lx, fin ly, fin lz⟩, ⟨fin ux, fin uy, fin uz⟩,
          fin fovy, fin aspect⟩, angle⟩ (fin u) (fin v))
        (generateRay.w ⟨Real.sqrt, Real.tan, Real.cos, Real.sin, Real.pi⟩
        ⟨⟨⟨fin ex, fin ey, fin ez⟩, ⟨fin lx, fin ly, fin lz⟩, ⟨fin ux, fin uy, fin uz⟩,
          fin fovy, fin aspect⟩, angle⟩) = fin (-1) := by
  obtain ⟨n, wx, wy, wz, ax, ay, az, -, -, -, -, -, hw, hu, hww, haa, haw⟩ :=
    generateRay_basis ex ey ez lx ly lz ux uy uz (fin fovy) (fin aspect) angle heye hup
  have hdir := generateRay_direction_eq ex ey ez fovy aspect u v wx wy wz ax ay az
    _ _ angle hw hu
  have hv : generateRay.v_vec ⟨Real.sqrt, Real.tan, Real.cos, Real.sin, Real.pi⟩
        ⟨⟨⟨fin ex, fin ey, fin ez⟩, ⟨fin lx, fin ly, fin lz⟩, ⟨fin ux, fin uy, fin uz⟩,
          fin fovy, fin aspect⟩, angle⟩
      = ⟨fin (wy * az - wz * ay), fin (wz * ax - wx * az), fin (wx * ay - wy * ax)⟩ := by
    simp only [generateRay.v_vec, hw, hu, cross, fin_mul_fin, fin_sub_fin]
  have hhei : generateRay.half_height ⟨Real.sqrt, Real.tan, Real.cos, Real.sin, Real.pi⟩
        ⟨⟨⟨fin ex, fin ey, fin ez⟩, ⟨fin lx, fin ly, fin lz⟩, ⟨fin ux, fin uy, fin uz⟩,
          fin fovy, fin aspect⟩, angle⟩
      = fin (Real.tan (fovy * 0.5)) := by
    simp only [generateRay.half_height, lit_real, fin_mul_fin, tan_fin]
  have hwid : generateRay.half_width ⟨Real.sqrt, Real.tan, Real.cos, Real.sin, Real.pi⟩
        ⟨⟨⟨fin ex, fin ey, fin ez⟩, ⟨fin lx, fin ly, fin lz⟩, ⟨fin ux, fin uy, fin uz⟩,
          fin fovy, fin aspect⟩, angle⟩
      = fin (aspect * Real.tan (fovy * 0.5)) := by
    simp only [generateRay.half_width, hhei, fin_mul_fin]
  refine ⟨wx, wy, wz, ax, ay, az, wy * az - wz * ay, wz * ax - wx * az, wx * ay - wy * ax,
    aspect * Real.tan (fovy * 0.5), Real.tan (fovy * 0.5), hw, hu, hv, hwid, hhei,
    ?_, ?_, ?_, ?_, ?_, ?_, hdir, ?_⟩
  · rw [hw]
    simp only [dot, fin_mul_fin, fin_add_fin, fin.injEq]
    exact hww
  · rw [hu]
    simp only [dot, fin_mul_fin, fin_add_fin, fin.injEq]
    exact haa
  · rw [hv]
    simp only [dot, fin_mul_fin, fin_add_fin, fin.injEq]
    linear_combination (ax * ax + ay * ay + az * az) * hww + haa
      - (ax * wx + ay * wy + az * wz) * haw
  · rw [hw, hu]
    simp only [dot, fin_mul_fin, fin_add_fin, fin.injEq]
    linear_combination haw
  · rw [hw, hv]
    simp only [dot, fin_mul_fin, fin_add_fin, fin.injEq]
    ring
  · rw [hu, hv]
    simp only [dot, fin_mul_fin, fin_add_fin, fin.injEq]
    ring
  · rw [hdir, hw]
    simp only [dot, fin_mul_fin, fin_add_fin, fin.injEq]
    linear_combination (-1 : ℝ) * hww + (2 * u - 1) * (aspect * Real.tan (fovy * 0.5)) * haw

/-- C11, amended, at the camera of the constructor (`eye = (0,0,5)`, `lookat = (0,0,0)`, `up = (0,1,0)`,
`fovy = π/4`, `aspect = 1024/768`), rotation angle `0`, and `u = 1/4`, `v = 3/4`. -/
theorem generateRay_orthonormal_basis_witness :
    ∃ wx wy wz ax ay az bx bY bz hwid hhei : ℝ,
      generateRay.w ⟨Real.sqrt, Real.tan, Real.cos, Real.sin, Real.pi⟩
        ⟨⟨⟨fin 0, fin 0, fin 5⟩, ⟨fin 0, fin 0, fin 0⟩, ⟨fin 0, fin 1, fin 0⟩,
          fin (Real.pi / 4), fin (1024 / 768)⟩, fin 0⟩ = ⟨fin wx, fin wy, fin wz⟩ ∧
      generateRay.u_vec ⟨Real.sqrt, Real.tan, Real.cos, Real.sin, Real.pi⟩
        ⟨⟨⟨fin 0, fin 0, fin 5⟩, ⟨fin 0, fin 0, fin 0⟩, ⟨fin 0, fin 1, fin 0⟩,
          fin (Real.pi / 4), fin (1024 / 768)⟩, fin 0⟩ = ⟨fin ax, fin ay, fin az⟩ ∧
      generateRay.v_vec ⟨Real.sqrt, Real.tan, Real.cos, Real.sin, Real.pi⟩
        ⟨⟨⟨fin 0, fin 0, fin 5⟩, ⟨fin 0, fin 0, fin 0⟩, ⟨fin 0, fin 1, fin 0⟩,
          fin (Real.pi / 4), fin (1024 / 768)⟩, fin 0⟩ = ⟨fin bx, fin bY, fin bz⟩ ∧
      generateRay.half_width ⟨Real.sqrt, Real.tan, Real.cos, Real.sin, Real.pi⟩
        ⟨⟨⟨fin 0, fin 0, fin 5⟩, ⟨fin 0, fin 0, fin 0⟩, ⟨fin 0, fin 1, fin 0⟩,
          fin (Real.pi / 4), fin (1024 / 768)⟩, fin 0⟩ = fin hwid ∧
      generateRay.half_height ⟨Real.sqrt, Real.tan, Real.cos, Real.sin, Real.pi⟩
        ⟨⟨⟨fin 0, fin 0, fin 5⟩, ⟨fin 0, fin 0, fin 0⟩, ⟨fin 0, fin 1, fin 0⟩,
          fin (Real.pi / 4), fin (1024 / 768)⟩, fin 0⟩ = fin hhei ∧
      dot (generateRay.w ⟨Real.sqrt, Real.tan, Real.cos, Real.sin, Real.pi⟩
        ⟨⟨⟨fin 0, fin 0, fin 5⟩, ⟨fin 0, fin 0, fin 0⟩, ⟨fin 0, fin 1, fin 0⟩,
          fin (Real.pi / 4), fin (1024 / 768)⟩, fin 0⟩)
        (generateRay.w ⟨Real.sqrt, Real.tan, Real.cos, Real.sin, Real.pi⟩
        ⟨⟨⟨fin 0, fin 0, fin 5⟩, ⟨fin 0, fin 0, fin 0⟩, ⟨fin 0, fin 1, fin 0⟩,
          fin (Real.pi / 4), fin (1024 / 768)⟩, fin 0⟩) = fin 1 ∧
      dot (generateRay.u_vec ⟨Real.sqrt, Real.tan, Real.cos, Real.sin, Real.pi⟩
        ⟨⟨⟨fin 0, fin 0, fin 5⟩, ⟨fin 0, fin 0, fin 0⟩, ⟨fin 0, fin 1, fin 0⟩,
          fin (Real.pi / 4), fin (1024 / 768)⟩, fin 0⟩)
        (generateRay.u_vec ⟨Real.sqrt, Real.tan, Real.cos, Real.sin, Real.pi⟩
        ⟨⟨⟨fin 0, fin 0, fin 5⟩, ⟨fin 0, fin 0, fin 0⟩, ⟨fin 0, fin 1, fin 0⟩,
          fin (Real.pi / 4), fin (1024 / 768)⟩, fin 0⟩) = fin 1 ∧
      dot (generateRay.v_vec ⟨Real.sqrt, Real.tan, Real.cos, Real.sin, Real.pi⟩
        ⟨⟨⟨fin 0, fin 0, fin 5⟩, ⟨fin 0, fin 0, fin 0⟩, ⟨fin 0, fin 1, fin 0⟩,
          fin (Real.pi / 4), fin (1024 / 768)⟩, fin 0⟩)
        (generateRay.v_vec ⟨Real.sqrt, Real.tan, Real.cos, Real.sin, Real.pi⟩
        ⟨⟨⟨fin 0, fin 0, fin 5⟩, ⟨fin 0, fin 0, fin 0⟩, ⟨fin 0, fin 1, fin 0⟩,
          fin (Real.pi / 4), fin (1024 / 768)⟩, fin 0⟩) = fin 1 ∧
      dot (generateRay.w ⟨Real.sqrt, Real.tan, Real.cos, Real.sin, Real.pi⟩
        ⟨⟨⟨fin 0, fin 0, fin 5⟩, ⟨fin 0, fin 0, fin 0⟩, ⟨fin 0, fin 1, fin 0⟩,
          fin (Real.pi / 4), fin (1024 / 768)⟩, fin 0⟩)
        (generateRay.u_vec ⟨Real.sqrt, Real.tan, Real.cos, Real.sin, Real.pi⟩
        ⟨⟨⟨fin 0, fin 0, fin 5⟩, ⟨fin 0, fin 0, fin 0⟩, ⟨fin 0, fin 1, fin 0⟩,
          fin (Real.pi / 4), fin (1024 / 768)⟩, fin 0⟩) = fin 0 ∧
      dot (generateRay.w ⟨Real.sqrt, Real.tan, Real.cos, Real.sin, Real.pi⟩
        ⟨⟨⟨fin 0, fin 0, fin 5⟩, ⟨fin 0, fin 0, fin 0⟩, ⟨fin 0, fin 1, fin 0⟩,
          fin (Real.pi / 4), fin (1024 / 768)⟩, fin 0⟩)
        (generateRay.v_vec ⟨Real.sqrt, Real.tan, Real.cos, Real.sin, Real.pi⟩
        ⟨⟨⟨fin 0, fin 0, fin 5⟩, ⟨fin 0, fin 0, fin 0⟩, ⟨fin 0, fin 1, fin 0⟩,
          fin (Real.pi / 4), fin (1024 / 768)⟩, fin 0⟩) = fin 0 ∧
      dot (generateRay.u_vec ⟨Real.sqrt, Real.tan, Real.cos, Real.sin, Real.pi⟩
        ⟨⟨⟨fin 0, fin 0, fin 5⟩, ⟨fin 0, fin 0, fin 0⟩, ⟨fin 0, fin 1, fin 0⟩,
          fin (Real.pi / 4), fin (1024 / 768)⟩, fin 0⟩)
        (generateRay.v_vec ⟨Real.sqrt, Real.tan, Real.cos, Real.sin, Real.pi⟩
        ⟨⟨⟨fin 0, fin 0, fin 5⟩, ⟨fin 0, fin 0, fin 0⟩, ⟨fin 0, fin 1, fin 0⟩,
          fin (Real.pi / 4), fin (1024 / 768)⟩, fin 0⟩) = fin 0 ∧
      generateRay.direction ⟨Real.sqrt, Real.tan, Real.cos, Real.sin, Real.pi⟩
        ⟨⟨⟨fin 0, fin 0, fin 5⟩, ⟨fin 0, fin 0, fin 0⟩, ⟨fin 0, fin 1, fin 0⟩,
          fin (Real.pi / 4), fin (1024 / 768)⟩, fin 0⟩ (fin (1 / 4)) (fin (3 / 4))
        = ⟨fin (-wx + (2 * (1 / 4) - 1) * hwid * ax + (2 * (3 / 4) - 1) * hhei * bx),
           fin (-wy + (2 * (1 / 4) - 1) * hwid * ay + (2 * (3 / 4) - 1) * hhei * bY),
           fin (-wz + (2 * (1 / 4) - 1) * hwid * az + (2 * (3 / 4) - 1) * hhei * bz)⟩ ∧
      dot (generateRay.direction ⟨Real.sqrt, Real.tan, Real.cos, Real.sin, Real.pi⟩
        ⟨⟨⟨fin 0, fin 0, fin 5⟩, ⟨fin 0, fin 0, fin 0⟩, ⟨fin 0, fin 1, fin 0⟩,
          fin (Real.pi / 4), fin (1024 / 768)⟩, fin 0⟩ (fin (1 / 4)) (fin (3 / 4)))
        (generateRay.w ⟨Real.sqrt, Real.tan, Real.cos, Real.sin, Real.pi⟩
        ⟨⟨⟨fin 0, fin 0, fin 5⟩, ⟨fin 0, fin 0, fin 0⟩, ⟨fin 0, fin 1, fin 0⟩,
          fin (Real.pi / 4), fin (1024 / 768)⟩, fin 0⟩) = fin (-1) :=
  generateRay_orthonormal_basis 0 0 5 0 0 0 0 1 0 (Real.pi / 4) (1024 / 768) (1 / 4) (3 / 4)
    (fin 0) (by simp) (by simp [cross, subtract])
    ⟨by positivity, by linarith [Real.pi_pos]⟩ (by norm_num)

end Reals

/-! ## The arithmetic of binary32 -/

section Binary32

open cfloat

/-- A number within `1/2` of an integer rounds to it. -/
theorem roundEven_eq (y : ℚ) (n : ℤ) (h : |y - n| < 1 / 2) : roundEven y = n := by
  rw [abs_lt] at h
  obtain ⟨h1, h2⟩ := h
  by_cases hy : (n : ℚ) ≤ y
  · have hf : ⌊y⌋ = n := Int.floor_eq_iff.mpr ⟨hy, by linarith⟩
    rw [roundEven, hf, if_pos (by linarith)]
  · push_neg at hy
    have hf : ⌊y⌋ = n - 1 := Int.floor_eq_iff.mpr ⟨by push_cast; linarith, by push_cast; linarith⟩
    rw [roundEven, hf, if_neg (by push_cast; linarith), if_pos (by push_cast; linarith)]
    ring

/-- The binade of a positive number. -/
theorem log_eq_of_bounds (x : ℚ) (e : ℤ) (h1 : (2 : ℚ) ^ e ≤ x) (h2 : x < 2 ^ (e + 1)) :
    Int.log 2 x = e := by
  have hpos : 0 < x := lt_of_lt_of_le (by positivity) h1
  have a := (Int.zpow_le_iff_le_log (b := 2) (by norm_num) hpos).mp (by exact_mod_cast h1)
  have b := (Int.lt_zpow_iff_log_lt (b := 2) (by norm_num) hpos).mp (by exact_mod_cast h2)
  omega

/-- The rounding of a number of the binade `e` that is within half a unit in the last place of
`n * 2 ^ (e - (p - 1))`. -/
theorem roundTo_eq (p : Nat) (x : ℚ) (e n : ℤ) (h1 : (2 : ℚ) ^ e ≤ |x|) (h2 : |x| < 2 ^ (e + 1))
    (hn : |x / 2 ^ (e - ((p : ℤ) - 1)) - n| < 1 / 2) :
    roundTo p x = n * 2 ^ (e - ((p : ℤ) - 1)) := by
  have hx : x ≠ 0 := by
    intro h
    rw [h, abs_zero] at h1
    exact absurd h1 (not_le.mpr (by positivity))
  rw [roundTo, if_neg hx, log_eq_of_bounds _ e h1 h2, roundEven_eq _ n hn]

@[simp] theorem roundTo_zero (p : Nat) : roundTo p 0 = 0 := by
  rw [roundTo, if_pos rfl]

/-- Rounding to the nearest integer is odd. -/
theorem roundEven_neg (y : ℚ) : roundEven (-y) = -roundEven y := by
  have hf0 : 0 ≤ y - ⌊y⌋ := sub_nonneg.mpr (Int.floor_le y)
  have hf1 : y - ⌊y⌋ < 1 := by linarith [Int.lt_floor_add_one y]
  rcases lt_trichotomy (y - ⌊y⌋) (1 / 2) with h | h | h
  · rw [roundEven_eq y ⌊y⌋ (by rw [abs_lt]; constructor <;> linarith),
      roundEven_eq (-y) (-⌊y⌋) (by rw [abs_lt]; push_cast; constructor <;> linarith)]
  · have hg : ⌊-y⌋ = -⌊y⌋ - 1 :=
      Int.floor_eq_iff.mpr ⟨by push_cast; linarith, by push_cast; linarith⟩
    have e1 : roundEven y = if ⌊y⌋ % 2 = 0 then ⌊y⌋ else ⌊y⌋ + 1 := by
      rw [roundEven, if_neg (by linarith), if_neg (by linarith)]
    have e2 : roundEven (-y) = if (-⌊y⌋ - 1) % 2 = 0 then -⌊y⌋ - 1 else -⌊y⌋ - 1 + 1 := by
      rw [roundEven, hg, if_neg (by push_cast; linarith), if_neg (by push_cast; linarith)]
    rw [e1, e2]
    by_cases hp : ⌊y⌋ % 2 = 0
    · rw [if_pos hp, if_neg (by omega)]
      ring
    · rw [if_neg hp, if_pos (by omega)]
      ring
  · rw [roundEven_eq y (⌊y⌋ + 1) (by rw [abs_lt]; push_cast; constructor <;> linarith),
      roundEven_eq (-y) (-(⌊y⌋ + 1)) (by rw [abs_lt]; push_cast; constructor <;> linarith)]

theorem floor_le_roundEven (y : ℚ) : ⌊y⌋ ≤ roundEven y := by
  unfold roundEven
  split_ifs <;> omega

theorem roundEven_le_floor_succ (y : ℚ) : roundEven y ≤ ⌊y⌋ + 1 := by
  unfold roundEven
  split_ifs <;> omega

theorem le_roundEven (y : ℚ) (k : ℤ) (h : (k : ℚ) ≤ y) : k ≤ roundEven y :=
  le_trans (Int.le_floor.mpr h) (floor_le_roundEven y)

theorem roundEven_le (y : ℚ) (k : ℤ) (h : y ≤ (k : ℚ)) : roundEven y ≤ k := by
  rcases eq_or_lt_of_le h with h | h
  · rw [roundEven_eq y k (by rw [h]; norm_num)]
  · have : ⌊y⌋ < k := Int.floor_lt.mpr h
    have := roundEven_le_floor_succ y
    omega

/-- Rounding is odd. -/
theorem roundTo_neg (p : Nat) (x : ℚ) : roundTo p (-x) = -roundTo p x := by
  by_cases hx : x = 0
  · simp [hx, roundTo]
  · rw [roundTo, roundTo, if_neg hx, if_neg (neg_ne_zero.mpr hx), abs_neg, neg_div, roundEven_neg]
    push_cast
    ring

/-- A rounded positive number is a number of 24 significant bits: rounding keeps it. -/
theorem roundTo_idem_of_pos (x : ℚ) (hx : 0 < x) : roundTo 24 (roundTo 24 x) = roundTo 24 x := by
  have hb : (1 : ℕ) < 2 := by norm_num
  have h1 : (2 : ℚ) ^ Int.log 2 x ≤ x := by
    have := Int.zpow_log_le_self (R := ℚ) hb hx
    exact_mod_cast this
  have h2 : x < (2 : ℚ) ^ (Int.log 2 x + 1) := by
    have := Int.lt_zpow_succ_log_self (R := ℚ) hb x
    exact_mod_cast this
  have hr : roundTo 24 x
      = roundEven (x / 2 ^ (Int.log 2 x - 23)) * 2 ^ (Int.log 2 x - 23) := by
    rw [roundTo, if_neg hx.ne', abs_of_pos hx]
    norm_num
  generalize Int.log 2 x = e at h1 h2 hr
  have hq : (0 : ℚ) < 2 ^ (e - 23) := by positivity
  have he : (2 : ℚ) ^ e = 8388608 * 2 ^ (e - 23) := by
    rw [show (2 : ℚ) ^ e = 2 ^ ((e - 23) + 23) by rw [sub_add_cancel], zpow_add₀ (by norm_num)]
    norm_num
    ring
  have he1 : (2 : ℚ) ^ (e + 1) = 16777216 * 2 ^ (e - 23) := by
    rw [zpow_add₀ (by norm_num), he]
    norm_num
    ring
  have he2 : (2 : ℚ) ^ (e + 1 + 1) = 33554432 * 2 ^ (e - 23) := by
    rw [zpow_add₀ (by norm_num), he1]
    norm_num
    ring
  have he3 : (2 : ℚ) ^ (e + 1 - 23) = 2 * 2 ^ (e - 23) := by
    rw [show e + 1 - 23 = (e - 23) + 1 by ring, zpow_add₀ (by norm_num)]
    norm_num
    ring
  have hlo : (8388608 : ℤ) ≤ roundEven (x / 2 ^ (e - 23)) := by
    apply le_roundEven
    rw [le_div_iff₀ hq]
    push_cast
    linarith
  have hhi : roundEven (x / 2 ^ (e - 23)) ≤ (16777216 : ℤ) := by
    apply roundEven_le
    rw [div_le_iff₀ hq]
    push_cast
    linarith
  rw [hr]
  generalize roundEven (x / 2 ^ (e - 23)) = n at hlo hhi
  have hlo' : (8388608 : ℚ) ≤ n := by exact_mod_cast hlo
  have hhi' : (n : ℚ) ≤ 16777216 := by exact_mod_cast hhi
  have hpos : (0 : ℚ) < n * 2 ^ (e - 23) := by positivity
  rcases lt_or_eq_of_le hhi with hlt | heq
  · have hlt' : (n : ℚ) < 16777216 := by exact_mod_cast hlt
    rw [roundTo_eq 24 _ e n]
    · norm_num
    · rw [abs_of_pos hpos, he]
      exact mul_le_mul_of_nonneg_right hlo' hq.le
    · rw [abs_of_pos hpos, he1]
      exact mul_lt_mul_of_pos_right hlt' hq
    · norm_num
      rw [mul_div_assoc, div_self hq.ne', mul_one, sub_self]
      norm_num
  · subst heq
    rw [roundTo_eq 24 _ (e + 1) 8388608]
    · norm_num
      rw [he3]
      ring
    · rw [abs_of_pos hpos, he1]
      norm_num
    · rw [abs_of_pos hpos, he2]
      push_cast
      linarith
    · have e0 : ((16777216 : ℤ) : ℚ) * 2 ^ (e - 23) / 2 ^ (e + 1 - ((24 : ℕ) - 1 : ℤ))
          - ((8388608 : ℤ) : ℚ) = 0 := by
        norm_num
        rw [he3]
        field_simp
        ring
      rw [e0]
      norm_num

/-- Rounding keeps a rounded number. -/
theorem roundTo_idem (x : ℚ) : roundTo 24 (roundTo 24 x) = roundTo 24 x := by
  rcases lt_trichotomy x 0 with h | h | h
  · have h' := roundTo_idem_of_pos (-x) (neg_pos.mpr h)
    rw [roundTo_neg, roundTo_neg] at h'
    exact neg_injective h'
  · subst h
    simp [roundTo]
  · exact roundTo_idem_of_pos x h

/-- The square root of binary32 at the square of a rational `r / 2 ^ j`. -/
theorem sqrt32_eq (x : ℚ) (e : ℤ) (r : Nat) (h1 : (2 : ℚ) ^ e ≤ x) (h2 : x < 2 ^ (e + 1))
    (hr : ((r * r : Nat) : ℚ) = x * 4 ^ (26 - e / 2)) :
    sqrt32 x = roundTo 24 (r / 2 ^ (26 - e / 2)) := by
  have hpos : 0 < x := lt_of_lt_of_le (by positivity) h1
  have hfloor : ⌊x * 4 ^ (26 - e / 2)⌋₊ = r * r := by
    rw [← hr, Nat.floor_natCast]
  simp only [sqrt32, if_neg (not_le.mpr hpos), log_eq_of_bounds x e h1 h2, hfloor,
    Nat.sqrt_eq, hr, if_true]

@[simp] theorem sqrt32_zero : sqrt32 0 = 0 := by
  rw [sqrt32, if_pos (le_refl _)]

@[simp] theorem rnd_rat (x : ℚ) : Rounding.rnd x = roundTo 24 x := rfl

@[simp] theorem roundTo_one : roundTo 24 1 = 1 := by
  rw [roundTo_eq 24 1 0 8388608 (by norm_num) (by norm_num) (by norm_num)]
  norm_num

@[simp] theorem roundTo_neg_one : roundTo 24 (-1) = -1 := by
  rw [roundTo_eq 24 (-1) 0 (-8388608) (by norm_num) (by norm_num) (by norm_num)]
  norm_num

@[simp] theorem roundTo_two : roundTo 24 2 = 2 := by
  rw [roundTo_eq 24 2 1 8388608 (by norm_num) (by norm_num) (by norm_num)]
  norm_num

@[simp] theorem roundTo_half : roundTo 24 0.5 = 0.5 := by
  rw [roundTo_eq 24 0.5 (-1) 8388608 (by norm_num [abs_of_pos]) (by norm_num [abs_of_pos])
    (by norm_num)]
  norm_num

@[simp] theorem roundTo_four : roundTo 24 4 = 4 := by
  rw [roundTo_eq 24 4 2 8388608 (by norm_num) (by norm_num) (by norm_num)]
  norm_num

@[simp] theorem roundTo_five : roundTo 24 5 = 5 := by
  rw [roundTo_eq 24 5 2 10485760 (by norm_num) (by norm_num) (by norm_num)]
  norm_num

@[simp] theorem roundTo_twenty_five : roundTo 24 25 = 25 := by
  rw [roundTo_eq 24 25 4 13107200 (by norm_num) (by norm_num) (by norm_num)]
  norm_num

@[simp] theorem sqrt32_one : sqrt32 1 = 1 := by
  rw [sqrt32_eq 1 0 67108864 (by norm_num) (by norm_num) (by norm_num)]
  norm_num

@[simp] theorem sqrt32_twenty_five : sqrt32 25 = 5 := by
  rw [sqrt32_eq 25 4 83886080 (by norm_num) (by norm_num) (by norm_num)]
  norm_num

/-- The number `2 ^ 27` is a binary32 number. -/
@[simp] theorem roundTo_far : roundTo 24 134217728 = 134217728 := by
  rw [roundTo_eq 24 134217728 27 8388608 (by norm_num) (by norm_num) (by norm_num)]
  norm_num

/-- Absorption: `2 ^ 27 - 1` rounds to `2 ^ 27`, the binary32 numbers near it being 8 apart. -/
@[simp] theorem roundTo_far_pred : roundTo 24 134217727 = 134217728 := by
  rw [roundTo_eq 24 134217727 26 16777216 (by norm_num) (by norm_num) (by norm_num [abs_lt])]
  norm_num

@[simp] theorem roundTo_far_sq : roundTo 24 18014398509481984 = 18014398509481984 := by
  rw [roundTo_eq 24 18014398509481984 54 8388608 (by norm_num) (by norm_num) (by norm_num)]
  norm_num

@[simp] theorem sqrt32_far_sq : sqrt32 18014398509481984 = 134217728 := by
  rw [sqrt32_eq 18014398509481984 54 67108864 (by norm_num) (by norm_num) (by norm_num)]
  norm_num

/-- The literal `0.02f`. -/
theorem roundTo_step : roundTo 24 0.02 = 5368709 / 268435456 := by
  rw [roundTo_eq 24 0.02 (-6) 10737418 (by norm_num [abs_of_pos]) (by norm_num [abs_of_pos])
    (by norm_num [abs_lt])]
  norm_num

/-- Absorption: at `524288` the binary32 numbers are `1/16` apart and `0.02f` is lost. -/
theorem roundTo_absorb : roundTo 24 (524288 + 5368709 / 268435456) = 524288 := by
  rw [roundTo_eq 24 _ 19 8388608 (by norm_num [abs_of_pos]) (by norm_num [abs_of_pos])
    (by norm_num [abs_lt])]
  norm_num

/-! ## The program in binary32 -/

/-- In binary32 the far camera `eye = (0, 0, 2^27)`, `lookat = (0, 0, 0)`, `up = (0, 1, 0)` has
`w = (0, 0, 1)` and `u_vec = (1, 0, 0)`, whatever `tan`, `cos`, `sin` and `M_PI` are. -/
theorem far_camera_basis (t c s : ℚ → ℚ) (pi : ℚ) (fovy aspect angle : cfloat ℚ) :
    generateRay.w ⟨sqrt32, t, c, s, pi⟩
        ⟨⟨⟨fin 0, fin 0, fin 134217728⟩, ⟨fin 0, fin 0, fin 0⟩, ⟨fin 0, fin 1, fin 0⟩,
          fovy, aspect⟩, angle⟩ = ⟨fin 0, fin 0, fin 1⟩ ∧
      generateRay.u_vec ⟨sqrt32, t, c, s, pi⟩
        ⟨⟨⟨fin 0, fin 0, fin 134217728⟩, ⟨fin 0, fin 0, fin 0⟩, ⟨fin 0, fin 1, fin 0⟩,
          fovy, aspect⟩, angle⟩ = ⟨fin 1, fin 0, fin 0⟩ := by
  have hw : generateRay.w ⟨sqrt32, t, c, s, pi⟩
        ⟨⟨⟨fin 0, fin 0, fin 134217728⟩, ⟨fin 0, fin 0, fin 0⟩, ⟨fin 0, fin 1, fin 0⟩,
          fovy, aspect⟩, angle⟩ = ⟨fin 0, fin 0, fin 1⟩ := by
    simp [generateRay.w, subtract, normalize, sqrt_fin]
    norm_num
  refine ⟨hw, ?_⟩
  simp [generateRay.u_vec, hw, cross, normalize, sqrt_fin]

/-- In binary32, at the far camera, `lower_left.z = 2^27 - 1` is rounded to `2^27`: the
argument of the final `normalize` is a finite vector with `z = 0` for all finite `fovy`,
`aspect`, `u`, `v`, its dot product with `w` is `0`, and the `z` of the ray is not `-1`. -/
theorem far_camera_direction (t c s : ℚ → ℚ) (pi fovy aspect u v : ℚ) (angle : cfloat ℚ) :
    (∃ dx dy : ℚ, generateRay.direction ⟨sqrt32, t, c, s, pi⟩
        ⟨⟨⟨fin 0, fin 0, fin 134217728⟩, ⟨fin 0, fin 0, fin 0⟩, ⟨fin 0, fin 1, fin 0⟩,
          fin fovy, fin aspect⟩, angle⟩ (fin u) (fin v) = ⟨fin dx, fin dy, fin 0⟩) ∧
      dot (generateRay.direction ⟨sqrt32, t, c, s, pi⟩
        ⟨⟨⟨fin 0, fin 0, fin 134217728⟩, ⟨fin 0, fin 0, fin 0⟩, ⟨fin 0, fin 1, fin 0⟩,
          fin fovy, fin aspect⟩, angle⟩ (fin u) (fin v))
        (generateRay.w ⟨sqrt32, t, c, s, pi⟩
        ⟨⟨⟨fin 0, fin 0, fin 134217728⟩, ⟨fin 0, fin 0, fin 0⟩, ⟨fin 0, fin 1, fin 0⟩,
          fin fovy, fin aspect⟩, angle⟩) = fin 0 ∧
      (generateRay ⟨sqrt32, t, c, s, pi⟩
        ⟨⟨⟨fin 0, fin 0, fin 134217728⟩, ⟨fin 0, fin 0, fin 0⟩, ⟨fin 0, fin 1, fin 0⟩,
          fin fovy, fin aspect⟩, angle⟩ (fin u) (fin v)).z ≠ fin (-1) := by
  obtain ⟨hw, hu⟩ := far_camera_basis t c s pi (fin fovy) (fin aspect) angle
  have hd : ∃ dx dy : ℚ, generateRay.direction ⟨sqrt32, t, c, s, pi⟩
        ⟨⟨⟨fin 0, fin 0, fin 134217728⟩, ⟨fin 0, fin 0, fin 0⟩, ⟨fin 0, fin 1, fin 0⟩,
          fin fovy, fin aspect⟩, angle⟩ (fin u) (fin v) = ⟨fin dx, fin dy, fin 0⟩ := by
    simp [generateRay.direction, generateRay.lower_left, generateRay.horizontal,
      generateRay.vertical, generateRay.v_vec, generateRay.half_width, generateRay.half_height,
      hw, hu, cross, subtract, add, multiply, lit_eq]
    norm_num
  obtain ⟨dx, dy, hdir⟩ := hd
  refine ⟨⟨dx, dy, hdir⟩, ?_, ?_⟩
  · rw [hw, hdir]
    simp [dot]
  · rw [generateRay, hdir]
    simp only [normalize]
    generalize sqrt ⟨sqrt32, t, c, s, pi⟩ (fin dx * fin dx + fin dy * fin dy + fin 0 * fin 0)
      = len
    cases len with
    | nan => simp
    | fin l =>
      by_cases hl : l = 0
      · simp [hl]
      · simp [hl]

@[simp] theorem roundTo_width : roundTo 24 1024 = 1024 := by
  rw [roundTo_eq 24 1024 10 8388608 (by norm_num) (by norm_num) (by norm_num)]
  norm_num

@[simp] theorem roundTo_height : roundTo 24 768 = 768 := by
  rw [roundTo_eq 24 768 9 12582912 (by norm_num) (by norm_num) (by norm_num)]
  norm_num

/-- In binary32 the camera of the constructor has `w = (0, 0, 1)` and `u_vec = (1, 0, 0)`. -/
theorem new_basis_binary32 (t c s : ℚ → ℚ) (pi : ℚ) :
    generateRay.w ⟨sqrt32, t, c, s, pi⟩ (RayTracingEngine.new ⟨sqrt32, t, c, s, pi⟩)
        = ⟨fin 0, fin 0, fin 1⟩ ∧
      generateRay.u_vec ⟨sqrt32, t, c, s, pi⟩ (RayTracingEngine.new ⟨sqrt32, t, c, s, pi⟩)
        = ⟨fin 1, fin 0, fin 0⟩ := by
  have hw : generateRay.w ⟨sqrt32, t, c, s, pi⟩ (RayTracingEngine.new ⟨sqrt32, t, c, s, pi⟩)
      = ⟨fin 0, fin 0, fin 1⟩ := by
    simp [generateRay.w, RayTracingEngine.new, subtract, normalize, sqrt_fin, lit_eq]
    norm_num
  refine ⟨hw, ?_⟩
  rw [generateRay.u_vec, hw]
  simp [cross, normalize, sqrt_fin, RayTracingEngine.new, lit_eq]

/-- In binary32 the centre ray of the camera of the constructor is `(0, 0, -1)`, whatever
`tan`, `cos`, `sin` and `M_PI` are. -/
theorem new_centre_binary32 (t c s : ℚ → ℚ) (pi : ℚ) :
    generateRay ⟨sqrt32, t, c, s, pi⟩ (RayTracingEngine.new ⟨sqrt32, t, c, s, pi⟩)
      (lit 0.5) (lit 0.5) = ⟨fin 0, fin 0, fin (-1)⟩ := by
  obtain ⟨hw, hu⟩ := new_basis_binary32 t c s pi
  have hd : generateRay.direction ⟨sqrt32, t, c, s, pi⟩
      (RayTracingEngine.new ⟨sqrt32, t, c, s, pi⟩) (lit 0.5) (lit 0.5)
      = ⟨fin 0, fin 0, fin (-1)⟩ := by
    simp [generateRay.direction, generateRay.lower_left, generateRay.horizontal,
      generateRay.vertical, generateRay.v_vec, generateRay.half_width, generateRay.half_height,
      hw, hu, cross, subtract, add, multiply, lit_eq, roundTo_idem, roundTo_neg]
    simp [RayTracingEngine.new, lit_eq, width, height, roundTo_idem, roundTo_neg]
    norm_num
  rw [generateRay, hd]
  simp [normalize, sqrt_fin]

/-- In binary32, at the far camera and `u = v = 0.5`, the argument of the final `normalize` is
the zero vector and the ray is `(NaN, NaN, NaN)`, whatever `tan`, `cos`, `sin`, `M_PI` are. -/
theorem far_camera_centre (t c s : ℚ → ℚ) (pi fovy aspect : ℚ) (angle : cfloat ℚ) :
    generateRay.direction ⟨sqrt32, t, c, s, pi⟩
        ⟨⟨⟨fin 0, fin 0, fin 134217728⟩, ⟨fin 0, fin 0, fin 0⟩, ⟨fin 0, fin 1, fin 0⟩,
          fin fovy, fin aspect⟩, angle⟩ (lit 0.5) (lit 0.5) = ⟨fin 0, fin 0, fin 0⟩ ∧
      generateRay ⟨sqrt32, t, c, s, pi⟩
        ⟨⟨⟨fin 0, fin 0, fin 134217728⟩, ⟨fin 0, fin 0, fin 0⟩, ⟨fin 0, fin 1, fin 0⟩,
          fin fovy, fin aspect⟩, angle⟩ (lit 0.5) (lit 0.5) = ⟨nan, nan, nan⟩ := by
  obtain ⟨hw, hu⟩ := far_camera_basis t c s pi (fin fovy) (fin aspect) angle
  have hd : generateRay.direction ⟨sqrt32, t, c, s, pi⟩
        ⟨⟨⟨fin 0, fin 0, fin 134217728⟩, ⟨fin 0, fin 0, fin 0⟩, ⟨fin 0, fin 1, fin 0⟩,
          fin fovy, fin aspect⟩, angle⟩ (lit 0.5) (lit 0.5) = ⟨fin 0, fin 0, fin 0⟩ := by
    simp [generateRay.direction, generateRay.lower_left, generateRay.horizontal,
      generateRay.vertical, generateRay.v_vec, generateRay.half_width, generateRay.half_height,
      hw, hu, cross, subtract, add, multiply, lit_eq, roundTo_idem, roundTo_neg]
    norm_num
  refine ⟨hd, ?_⟩
  rw [generateRay, hd]
  simp [normalize, sqrt_fin]

/-- In binary32 the camera `eye = (0,0,5)`, `lookat = (0,0,0)`, `up = (0,0,1)` has `w = (0,0,1)`
and `cross(up, w)` the zero vector. -/
theorem parallel_camera_binary32 (t c s : ℚ → ℚ) (pi : ℚ) (fovy aspect angle : cfloat ℚ) :
    cross (⟨fin 0, fin 0, fin 1⟩ : float3 ℚ)
        (generateRay.w ⟨sqrt32, t, c, s, pi⟩
          ⟨⟨⟨fin 0, fin 0, fin 5⟩, ⟨fin 0, fin 0, fin 0⟩, ⟨fin 0, fin 0, fin 1⟩,
            fovy, aspect⟩, angle⟩) = ⟨fin 0, fin 0, fin 0⟩ := by
  have hw : generateRay.w ⟨sqrt32, t, c, s, pi⟩
        ⟨⟨⟨fin 0, fin 0, fin 5⟩, ⟨fin 0, fin 0, fin 0⟩, ⟨fin 0, fin 0, fin 1⟩,
          fovy, aspect⟩, angle⟩ = ⟨fin 0, fin 0, fin 1⟩ := by
    simp [generateRay.w, subtract, normalize, sqrt_fin]
    norm_num
  rw [hw]
  simp [cross]

/-! ## Degenerate cameras -/

/-- C2, amended.  In every reading of `float` (rounding `rnd` with `rnd 0 = 0`, square root with
`sqrt 0 = 0`), for every camera and rotation angle for which the computed `cross(up, w)` is the
zero vector, and every `u`, `v`: `normalize` is applied to that zero vector, `u_vec` is
`(NaN, NaN, NaN)`, and `generateRay(u, v)` returns the vector `(NaN, NaN, NaN)`; the result is
a `float3` and no error is reported. -/
theorem generateRay_zero_cross_nan {F : Type} [LinearOrderedField F] [Rounding F]
    (m : CMath F) (self : RayTracingEngine F) (u v : cfloat F)
    (h0 : Rounding.rnd (0 : F) = 0) (hs : m.sqrt 0 = 0)
    (hc : cross self.camera.up (generateRay.w m self) = ⟨fin 0, fin 0, fin 0⟩) :
    generateRay.u_vec m self = normalize m ⟨fin 0, fin 0, fin 0⟩ ∧
      generateRay.u_vec m self = ⟨nan, nan, nan⟩ ∧
      generateRay m self u v = ⟨nan, nan, nan⟩ := by
  have hu : generateRay.u_vec m self = ⟨nan, nan, nan⟩ := by
    rw [generateRay.u_vec, hc]
    simp [normalize, sqrt_fin, h0, hs]
  refine ⟨?_, hu, generateRay_nan_of_u_vec m self u v hu⟩
  rw [generateRay.u_vec, hc]

/-- C2, amended, at the camera `eye = (0,0,5)`, `lookat = (0,0,0)`, `up = (0,0,1)` with
`u = 0.25`, `v = 0.75`: over the reals, and in binary32 with `fovy = 0.75`, `aspect = 1.25`
whatever `tan`, `cos`, `sin` and `M_PI` are. -/
theorem generateRay_zero_cross_nan_witness :
    generateRay ⟨Real.sqrt, Real.tan, Real.cos, Real.sin, Real.pi⟩
        ⟨⟨⟨fin 0, fin 0, fin 5⟩, ⟨fin 0, fin 0, fin 0⟩, ⟨fin 0, fin 0, fin 1⟩,
          fin (Real.pi / 4), fin (1024 / 768)⟩, fin 0⟩ (fin 0.25) (fin 0.75) = ⟨nan, nan, nan⟩ ∧
      ∀ (t c s : ℚ → ℚ) (pi : ℚ),
        generateRay ⟨sqrt32, t, c, s, pi⟩
          ⟨⟨⟨fin 0, fin 0, fin 5⟩, ⟨fin 0, fin 0, fin 0⟩, ⟨fin 0, fin 0, fin 1⟩,
            fin 0.75, fin 1.25⟩, fin 0⟩ (fin 0.25) (fin 0.75) = ⟨nan, nan, nan⟩ :=
  ⟨(generateRay_zero_cross_nan ⟨Real.sqrt, Real.tan, Real.cos, Real.sin, Real.pi⟩
      ⟨⟨⟨fin 0, fin 0, fin 5⟩, ⟨fin 0, fin 0, fin 0⟩, ⟨fin 0, fin 0, fin 1⟩,
        fin (Real.pi / 4), fin (1024 / 768)⟩, fin 0⟩ (fin 0.25) (fin 0.75) (rnd_real 0)
      Real.sqrt_zero generateRay_degenerate_real.2.1).2.2,
    fun t c s pi =>
      (generateRay_zero_cross_nan ⟨sqrt32, t, c, s, pi⟩
        ⟨⟨⟨fin 0, fin 0, fin 5⟩, ⟨fin 0, fin 0, fin 0⟩, ⟨fin 0, fin 0, fin 1⟩,
          fin 0.75, fin 1.25⟩, fin 0⟩ (fin 0.25) (fin 0.75) (roundTo_zero 24) sqrt32_zero
        (parallel_camera_binary32 _ _ _ _ _ _ _)).2.2⟩

/-- C2, counterexample.  The camera `eye = (0,0,5)`, `lookat = (0,0,0)`, `up = (0,0,1)` has `up`
parallel to `eye - lookat`.  At `u = v = 0.5`, over the reals and in binary32 (whatever `tan`,
`cos`, `sin`, `M_PI`, `fovy`, `aspect` and the rotation angle are), `cross(up, w)` is the zero
vector, `normalize` is applied to it, and `generateRay` returns the vector `(NaN, NaN, NaN)`: its
result is a `float3` and no error is reported. -/
theorem generateRay_degenerate_counterexample :
    generateRay ⟨Real.sqrt, Real.tan, Real.cos, Real.sin, Real.pi⟩
        ⟨⟨⟨fin 0, fin 0, fin 5⟩, ⟨fin 0, fin 0, fin 0⟩, ⟨fin 0, fin 0, fin 1⟩,
          fin (Real.pi / 4), fin (1024 / 768)⟩, fin 0⟩ (fin 0.5) (fin 0.5) = ⟨nan, nan, nan⟩ ∧
      cross (⟨fin 0, fin 0, fin 1⟩ : float3 ℚ)
        (subtract ⟨fin 0, fin 0, fin 5⟩ ⟨fin 0, fin 0, fin 0⟩) = ⟨fin 0, fin 0, fin 0⟩ ∧
      ∀ (t c s : ℚ → ℚ) (pi : ℚ) (fovy aspect angle : cfloat ℚ),
        cross (⟨fin 0, fin 0, fin 1⟩ : float3 ℚ)
          (generateRay.w ⟨sqrt32, t, c, s, pi⟩
            ⟨⟨⟨fin 0, fin 0, fin 5⟩, ⟨fin 0, fin 0, fin 0⟩, ⟨fin 0, fin 0, fin 1⟩,
              fovy, aspect⟩, angle⟩) = ⟨fin 0, fin 0, fin 0⟩ ∧
        generateRay ⟨sqrt32, t, c, s, pi⟩
          ⟨⟨⟨fin 0, fin 0, fin 5⟩, ⟨fin 0, fin 0, fin 0⟩, ⟨fin 0, fin 0, fin 1⟩,
            fovy, aspect⟩, angle⟩ (lit 0.5) (lit 0.5) = ⟨nan, nan, nan⟩ := by
  refine ⟨generateRay_degenerate_real.2.2.2, by simp [cross, subtract], ?_⟩
  intro t c s pi fovy aspect angle
  have hc := parallel_camera_binary32 t c s pi fovy aspect angle
  refine ⟨hc, ?_⟩
  apply generateRay_nan_of_u_vec
  rw [generateRay.u_vec]
  show normalize _ (cross (⟨fin 0, fin 0, fin 1⟩ : float3 ℚ) _) = _
  rw [hc]
  simp [normalize, sqrt_fin]

/-! ## The centre ray -/

/-- C5, counterexample.  In binary32 the camera `eye = (0, 0, 2^27)`, `lookat = (0, 0, 0)`,
`up = (0, 1, 0)`, `fovy = 0.75`, `aspect = 1.25` is non-degenerate, and whatever `tan`, `cos`,
`sin` and `M_PI` are: `w = (0, 0, 1)` and `normalize(lookat - eye) = (0, 0, -1)`, but
`lower_left.z = 2^27 - 1` is rounded to `2^27`, the argument of the final `normalize` at
`u = v = 0.5` is the zero vector, and `generateRay(0.5, 0.5)` is `(NaN, NaN, NaN)`, not `-w`. -/
theorem generateRay_centre_counterexample :
    (⟨fin 0, fin 0, fin 134217728⟩ : float3 ℚ) ≠ ⟨fin 0, fin 0, fin 0⟩ ∧
      cross (⟨fin 0, fin 1, fin 0⟩ : float3 ℚ)
        (subtract ⟨fin 0, fin 0, fin 134217728⟩ ⟨fin 0, fin 0, fin 0⟩)
        ≠ ⟨fin 0, fin 0, fin 0⟩ ∧
      ((0 : ℚ) < 0.75 ∧ (0.75 : ℚ) < 3) ∧ (0 : ℚ) < 1.25 ∧
      ∀ (t c s : ℚ → ℚ) (pi : ℚ),
        generateRay.w ⟨sqrt32, t, c, s, pi⟩
          ⟨⟨⟨fin 0, fin 0, fin 134217728⟩, ⟨fin 0, fin 0, fin 0⟩, ⟨fin 0, fin 1, fin 0⟩,
            fin 0.75, fin 1.25⟩, fin 0⟩ = ⟨fin 0, fin 0, fin 1⟩ ∧
        normalize ⟨sqrt32, t, c, s, pi⟩
          (subtract ⟨fin 0, fin 0, fin 0⟩ ⟨fin 0, fin 0, fin 134217728⟩)
          = ⟨fin 0, fin 0, fin (-1)⟩ ∧
        generateRay.direction ⟨sqrt32, t, c, s, pi⟩
          ⟨⟨⟨fin 0, fin 0, fin 134217728⟩, ⟨fin 0, fin 0, fin 0⟩, ⟨fin 0, fin 1, fin 0⟩,
            fin 0.75, fin 1.25⟩, fin 0⟩ (lit 0.5) (lit 0.5) = ⟨fin 0, fin 0, fin 0⟩ ∧
        generateRay ⟨sqrt32, t, c, s, pi⟩
          ⟨⟨⟨fin 0, fin 0, fin 134217728⟩, ⟨fin 0, fin 0, fin 0⟩, ⟨fin 0, fin 1, fin 0⟩,
            fin 0.75, fin 1.25⟩, fin 0⟩ (lit 0.5) (lit 0.5) = ⟨nan, nan, nan⟩ := by
  refine ⟨by simp, by simp [cross, subtract], by norm_num, by norm_num, ?_⟩
  intro t c s pi
  obtain ⟨hd, hr⟩ := far_camera_centre t c s pi 0.75 1.25 (fin 0)
  refine ⟨(far_camera_basis t c s pi (fin 0.75) (fin 1.25) (fin 0)).1, ?_, hd, hr⟩
  simp [subtract, normalize, sqrt_fin, roundTo_neg]
  norm_num

/-- C5, amended.  For the camera of the constructor (`eye = (0,0,5)`, `lookat = (0,0,0)`,
`up = (0,1,0)`, `fovy = 45°`, `aspect = 1024/768`), `generateRay(0.5, 0.5) = (0, 0, -1)`, in
binary32 (whatever `tan`, `cos`, `sin` and `M_PI` are) and over the reals; and when `float` is
read as real arithmetic, for every non-degenerate camera (`eye ≠ lookat`, `up` not parallel to
`eye - lookat`, `fovy` in `(0, π)`, `aspect > 0`)
`generateRay(0.5, 0.5) = -w = normalize(lookat - eye)`. -/
theorem generateRay_centre (ex ey ez lx ly lz ux uy uz fovy aspect : ℝ) (angle : cfloat ℝ)
    (heye : (⟨fin ex, fin ey, fin ez⟩ : float3 ℝ) ≠ ⟨fin lx, fin ly, fin lz⟩)
    (hup : cross (⟨fin ux, fin uy, fin uz⟩ : float3 ℝ)
        (subtract ⟨fin ex, fin ey, fin ez⟩ ⟨fin lx, fin ly, fin lz⟩) ≠ ⟨fin 0, fin 0, fin 0⟩)
    (hfovy : 0 < fovy ∧ fovy < Real.pi) (haspect : 0 < aspect) :
    (∀ (t c s : ℚ → ℚ) (pi : ℚ),
      generateRay ⟨sqrt32, t, c, s, pi⟩ (RayTracingEngine.new ⟨sqrt32, t, c, s, pi⟩)
        (lit 0.5) (lit 0.5) = ⟨fin 0, fin 0, fin (-1)⟩) ∧
    generateRay ⟨Real.sqrt, Real.tan, Real.cos, Real.sin, Real.pi⟩
        (RayTracingEngine.new ⟨Real.sqrt, Real.tan, Real.cos, Real.sin, Real.pi⟩)
        (fin 0.5) (fin 0.5) = ⟨fin 0, fin 0, fin (-1)⟩ ∧
    ∃ wx wy wz : ℝ,
      generateRay.w ⟨Real.sqrt, Real.tan, Real.cos, Real.sin, Real.pi⟩
        ⟨⟨⟨fin ex, fin ey, fin ez⟩, ⟨fin lx, fin ly, fin lz⟩, ⟨fin ux, fin uy, fin uz⟩,
          fin fovy, fin aspect⟩, angle⟩ = ⟨fin wx, fin wy, fin wz⟩ ∧
      generateRay ⟨Real.sqrt, Real.tan, Real.cos, Real.sin, Real.pi⟩
        ⟨⟨⟨fin ex, fin ey, fin ez⟩, ⟨fin lx, fin ly, fin lz⟩, ⟨fin ux, fin uy, fin uz⟩,
          fin fovy, fin aspect⟩, angle⟩ (fin 0.5) (fin 0.5) = ⟨fin (-wx), fin (-wy), fin (-wz)⟩ ∧
      generateRay ⟨Real.sqrt, Real.tan, Real.cos, Real.sin, Real.pi⟩
        ⟨⟨⟨fin ex, fin ey, fin ez⟩, ⟨fin lx, fin ly, fin lz⟩, ⟨fin ux, fin uy, fin uz⟩,
          fin fovy, fin aspect⟩, angle⟩ (fin 0.5) (fin 0.5)
        = normalize ⟨Real.sqrt, Real.tan, Real.cos, Real.sin, Real.pi⟩
            (subtract ⟨fin lx, fin ly, fin lz⟩ ⟨fin ex, fin ey, fin ez⟩) :=
  ⟨new_centre_binary32,
    generateRay_centre_real ex ey ez lx ly lz ux uy uz fovy aspect angle heye hup hfovy haspect⟩

/-- C5, amended, at the camera `eye = (1, 2, 3)`, `lookat = (1, 2, 0)`, `up = (0, 1, 0)`,
`fovy = 1`, `aspect = 2` over the reals. -/
theorem generateRay_centre_witness :
    ∃ wx wy wz : ℝ,
      generateRay.w ⟨Real.sqrt, Real.tan, Real.cos, Real.sin, Real.pi⟩
        ⟨⟨⟨fin 1, fin 2, fin 3⟩, ⟨fin 1, fin 2, fin 0⟩, ⟨fin 0, fin 1, fin 0⟩,
          fin 1, fin 2⟩, fin 0⟩ = ⟨fin wx, fin wy, fin wz⟩ ∧
      generateRay ⟨Real.sqrt, Real.tan, Real.cos, Real.sin, Real.pi⟩
        ⟨⟨⟨fin 1, fin 2, fin 3⟩, ⟨fin 1, fin 2, fin 0⟩, ⟨fin 0, fin 1, fin 0⟩,
          fin 1, fin 2⟩, fin 0⟩ (fin 0.5) (fin 0.5) = ⟨fin (-wx), fin (-wy), fin (-wz)⟩ ∧
      generateRay ⟨Real.sqrt, Real.tan, Real.cos, Real.sin, Real.pi⟩
        ⟨⟨⟨fin 1, fin 2, fin 3⟩, ⟨fin 1, fin 2, fin 0⟩, ⟨fin 0, fin 1, fin 0⟩,
          fin 1, fin 2⟩, fin 0⟩ (fin 0.5) (fin 0.5)
        = normalize ⟨Real.sqrt, Real.tan, Real.cos, Real.sin, Real.pi⟩
            (subtract ⟨fin 1, fin 2, fin 0⟩ ⟨fin 1, fin 2, fin 3⟩) :=
  (generateRay_centre 1 2 3 1 2 0 0 1 0 1 2 (fin 0) (by simp) (by simp [cross, subtract])
    ⟨by norm_num, by linarith [Real.pi_gt_three]⟩ (by norm_num)).2.2

/-! ## The camera basis in binary32 -/

/-- C11, counterexample.  In binary32 the camera `eye = (0, 0, 2^27)`, `lookat = (0, 0, 0)`,
`up = (0, 1, 0)`, `fovy = 0.75`, `aspect = 1.25` is non-degenerate, and whatever `tan`, `cos`,
`sin` and `M_PI` are, `w = (0, 0, 1)`; for all finite `u`, `v` the argument of the final
`normalize` has dot product `0` with `w`, not `-1`, and at `u = v = 0.5` it is the zero vector. -/
theorem generateRay_orthonormal_counterexample :
    (⟨fin 0, fin 0, fin 134217728⟩ : float3 ℚ) ≠ ⟨fin 0, fin 0, fin 0⟩ ∧
      cross (⟨fin 0, fin 1, fin 0⟩ : float3 ℚ)
        (subtract ⟨fin 0, fin 0, fin 134217728⟩ ⟨fin 0, fin 0, fin 0⟩)
        ≠ ⟨fin 0, fin 0, fin 0⟩ ∧
      ((0 : ℚ) < 0.75 ∧ (0.75 : ℚ) < 3) ∧ (0 : ℚ) < 1.25 ∧
      (fin 0 : cfloat ℚ) ≠ fin (-1) ∧
      ∀ (t c s : ℚ → ℚ) (pi u v : ℚ),
        generateRay.w ⟨sqrt32, t, c, s, pi⟩
          ⟨⟨⟨fin 0, fin 0, fin 134217728⟩, ⟨fin 0, fin 0, fin 0⟩, ⟨fin 0, fin 1, fin 0⟩,
            fin 0.75, fin 1.25⟩, fin 0⟩ = ⟨fin 0, fin 0, fin 1⟩ ∧
        dot (generateRay.direction ⟨sqrt32, t, c, s, pi⟩
          ⟨⟨⟨fin 0, fin 0, fin 134217728⟩, ⟨fin 0, fin 0, fin 0⟩, ⟨fin 0, fin 1, fin 0⟩,
            fin 0.75, fin 1.25⟩, fin 0⟩ (fin u) (fin v))
          (generateRay.w ⟨sqrt32, t, c, s, pi⟩
          ⟨⟨⟨fin 0, fin 0, fin 134217728⟩, ⟨fin 0, fin 0, fin 0⟩, ⟨fin 0, fin 1, fin 0⟩,
            fin 0.75, fin 1.25⟩, fin 0⟩) = fin 0 ∧
        generateRay.direction ⟨sqrt32, t, c, s, pi⟩
          ⟨⟨⟨fin 0, fin 0, fin 134217728⟩, ⟨fin 0, fin 0, fin 0⟩, ⟨fin 0, fin 1, fin 0⟩,
            fin 0.75, fin 1.25⟩, fin 0⟩ (lit 0.5) (lit 0.5) = ⟨fin 0, fin 0, fin 0⟩ := by
  refine ⟨by simp, by simp [cross, subtract], by norm_num, by norm_num, by simp, ?_⟩
  intro t c s pi u v
  exact ⟨(far_camera_basis t c s pi (fin 0.75) (fin 1.25) (fin 0)).1,
    (far_camera_direction t c s pi 0.75 1.25 u v (fin 0)).2.1,
    (far_camera_centre t c s pi 0.75 1.25 (fin 0)).1⟩

/-! ## The frame loop in every reading -/

/-- C6, counterexample.  In binary32 the literal `0.02f` is `5368709 / 2^28`, and one
`renderFrame` step from the rotation angle `524288`, where the binary32 numbers are `1/16`
apart, leaves the rotation angle at `524288`, not at `524288 + 0.02`, whatever the camera and
the functions of `<cmath>` are. -/
theorem renderFrame_angle_counterexample :
    (lit 0.02 : cfloat ℚ) = fin (5368709 / 268435456) ∧
      (fin 524288 : cfloat ℚ) ≠ fin (524288 + 0.02) ∧
      ∀ (m : CMath ℚ) (camera : Camera ℚ),
        (renderFrame m ⟨camera, fin 524288⟩).1.rotation_angle = fin 524288 := by
  have hl : (lit 0.02 : cfloat ℚ) = fin (5368709 / 268435456) := by
    rw [lit_eq, rnd_rat, roundTo_step]
  refine ⟨hl, ?_, ?_⟩
  · simp only [ne_eq, fin.injEq]
    norm_num
  · intro m camera
    show (fin 524288 + lit 0.02 : cfloat ℚ) = fin 524288
    rw [hl, add_fin_fin, rnd_rat, roundTo_absorb]

/-- C6, amended.  In every reading of `float` in which the literals `1.0f` and `0` differ, one
`renderFrame` step from rotation angle `a` leaves the camera, sets the rotation angle to the
float sum `a + 0.02f` (over the reals: `a + 0.02`), and produces a buffer of `1024 * 768`
entries whose entry `y * 1024 + x`, for `x < 1024` and `y < 768`, is `(c.x, c.y, c.z, 1.0)` with
`c = traceRay(generateRay((float)x / width, (float)y / height), generateHelloWorldGeometry())` at
the advanced rotation angle.  Every index below `1024 * 768` is `y * 1024 + x` for exactly one
pixel `(x, y)`, and no entry is the default `(0, 0, 0, 0)`. -/
theorem renderFrame_step {F : Type} [LinearOrderedField F] [Rounding F] (m : CMath F)
    (self : RayTracingEngine F) (h01 : Rounding.rnd (1.0 : F) ≠ Rounding.rnd 0) :
    (renderFrame m self).1.rotation_angle = self.rotation_angle + lit 0.02 ∧
      (∀ a : ℝ, (fin a + lit 0.02 : cfloat ℝ) = fin (a + 0.02)) ∧
      (renderFrame m self).1.camera = self.camera ∧
      (renderFrame m self).2.length = 1024 * 768 ∧
      (∀ x y : Nat, x < 1024 → y < 768 →
        (renderFrame m self).2[y * 1024 + x]?
          = some
            ⟨(traceRay m ⟨self.camera, self.rotation_angle + lit 0.02⟩
                (generateRay m ⟨self.camera, self.rotation_angle + lit 0.02⟩
                  (lit (x : F) / lit (width : F)) (lit (y : F) / lit (height : F)))
                generateHelloWorldGeometry).x,
              (traceRay m ⟨self.camera, self.rotation_angle + lit 0.02⟩
                (generateRay m ⟨self.camera, self.rotation_angle + lit 0.02⟩
                  (lit (x : F) / lit (width : F)) (lit (y : F) / lit (height : F)))
                generateHelloWorldGeometry).y,
              (traceRay m ⟨self.camera, self.rotation_angle + lit 0.02⟩
                (generateRay m ⟨self.camera, self.rotation_angle + lit 0.02⟩
                  (lit (x : F) / lit (width : F)) (lit (y : F) / lit (height : F)))
                generateHelloWorldGeometry).z,
              lit 1.0⟩) ∧
      (∀ i : Nat, i < 1024 * 768 →
        ∃! p : Nat × Nat, p.1 < 1024 ∧ p.2 < 768 ∧ p.2 * 1024 + p.1 = i) ∧
      (∀ i : Nat, i < 1024 * 768 →
        ∃ e : float4 F, (renderFrame m self).2[i]? = some e ∧ e ≠ float4.default) := by
  have hW : width = 1024 := rfl
  have hH : height = 768 := rfl
  obtain ⟨k1, -, k3⟩ := foldl_set_rows
    (fun y x => (⟨(traceRay m ⟨self.camera, self.rotation_angle + lit 0.02⟩
                (generateRay m ⟨self.camera, self.rotation_angle + lit 0.02⟩
                  (lit (x : F) / lit (width : F)) (lit (y : F) / lit (height : F)))
                generateHelloWorldGeometry).x,
              (traceRay m ⟨self.camera, self.rotation_angle + lit 0.02⟩
                (generateRay m ⟨self.camera, self.rotation_angle + lit 0.02⟩
                  (lit (x : F) / lit (width : F)) (lit (y : F) / lit (height : F)))
                generateHelloWorldGeometry).y,
              (traceRay m ⟨self.camera, self.rotation_angle + lit 0.02⟩
                (generateRay m ⟨self.camera, self.rotation_angle + lit 0.02⟩
                  (lit (x : F) / lit (width : F)) (lit (y : F) / lit (height : F)))
                generateHelloWorldGeometry).z,
              lit 1.0⟩ : float4 F))
    width height (List.replicate (width * height) float4.default)
  rw [← renderFrame_pixels] at k1 k3
  rw [List.length_replicate] at k1 k3
  have hentry : ∀ x y : Nat, x < 1024 → y < 768 →
        (renderFrame m self).2[y * 1024 + x]?
          = some
            ⟨(traceRay m ⟨self.camera, self.rotation_angle + lit 0.02⟩
                (generateRay m ⟨self.camera, self.rotation_angle + lit 0.02⟩
                  (lit (x : F) / lit (width : F)) (lit (y : F) / lit (height : F)))
                generateHelloWorldGeometry).x,
              (traceRay m ⟨self.camera, self.rotation_angle + lit 0.02⟩
                (generateRay m ⟨self.camera, self.rotation_angle + lit 0.02⟩
                  (lit (x : F) / lit (width : F)) (lit (y : F) / lit (height : F)))
                generateHelloWorldGeometry).y,
              (traceRay m ⟨self.camera, self.rotation_angle + lit 0.02⟩
                (generateRay m ⟨self.camera, self.rotation_angle + lit 0.02⟩
                  (lit (x : F) / lit (width : F)) (lit (y : F) / lit (height : F)))
                generateHelloWorldGeometry).z,
              lit 1.0⟩ := by
    intro x y hx hy
    exact k3 y x (by rw [hH]; exact hy) (by rw [hW]; exact hx) (by rw [hW, hH]; omega)
  refine ⟨rfl, fun a => rfl, rfl, k1, hentry, ?_, ?_⟩
  · intro i hi
    refine ⟨(i % 1024, i / 1024), ⟨?_, ?_, ?_⟩, ?_⟩
    · exact Nat.mod_lt _ (by norm_num)
    · show i / 1024 < 768
      omega
    · show i / 1024 * 1024 + i % 1024 = i
      omega
    · rintro ⟨x, y⟩ ⟨h1, h2, h3⟩
      simp only at h1 h2 h3
      simp only [Prod.mk.injEq]
      omega
  · intro i hi
    have e : i = i / 1024 * 1024 + i % 1024 := by omega
    have h := hentry (i % 1024) (i / 1024) (Nat.mod_lt _ (by norm_num)) (by omega)
    rw [← e] at h
    refine ⟨_, h, ?_⟩
    intro h'
    have h4 := congrArg float4.w h'
    simp only [float4.default, lit_eq, fin.injEq] at h4
    exact h01 h4

/-- In binary32 the literals `1.0f` and `0` differ. -/
theorem rnd_one_ne_zero_rat : Rounding.rnd (1.0 : ℚ) ≠ Rounding.rnd 0 := by
  rw [rnd_rat, rnd_rat, show (1.0 : ℚ) = 1 by norm_num, roundTo_one, roundTo_zero]
  norm_num

/-- C6, amended, at the engine of the constructor: over the reals the rotation angle `0`
becomes `0.02`; in binary32, whatever the functions of `<cmath>` are, it becomes the float sum
`0 + 0.02f` and the buffer has `1024 * 768` entries. -/
theorem renderFrame_step_witness :
    (renderFrame ⟨Real.sqrt, Real.tan, Real.cos, Real.sin, Real.pi⟩
        (RayTracingEngine.new ⟨Real.sqrt, Real.tan, Real.cos, Real.sin, Real.pi⟩)).1.rotation_angle
        = fin 0.02 ∧
      ∀ m : CMath ℚ,
        (renderFrame m (RayTracingEngine.new m)).1.rotation_angle
            = (RayTracingEngine.new m).rotation_angle + lit 0.02 ∧
          (renderFrame m (RayTracingEngine.new m)).2.length = 1024 * 768 :=
  ⟨((renderFrame_step ⟨Real.sqrt, Real.tan, Real.cos, Real.sin, Real.pi⟩
        (RayTracingEngine.new ⟨Real.sqrt, Real.tan, Real.cos, Real.sin, Real.pi⟩)
        (by norm_num)).1).trans (by simp [RayTracingEngine.new]; norm_num),
    fun m =>
      ⟨(renderFrame_step m (RayTracingEngine.new m) rnd_one_ne_zero_rat).1,
        (renderFrame_step m (RayTracingEngine.new m) rnd_one_ne_zero_rat).2.2.2.1⟩⟩

/-! ## The light direction -/

/-- C10.  The light direction of `traceRay` is the literal `(0.577f, 0.577f, 0.577f)`, which the
comment of the code calls `Normalized (1,1,1)`, and it is not a unit vector.  Over the reals
its squared length is `0.998787`, not `1`, it is not `normalize((1, 1, 1))`, and its dot product
with `normalize((1, 1, 1))`, the unit vector of its own direction, is below `1.0`.  In binary32
its components are `4840227 / 2^23` and `dot(light_dir, light_dir)` is `8378433 / 2^23`,
not `1`. -/
theorem light_dir_not_unit :
    dot (traceRay.light_dir : float3 ℝ) traceRay.light_dir = fin 0.998787 ∧
      dot (traceRay.light_dir : float3 ℝ) traceRay.light_dir ≠ fin 1 ∧
      (traceRay.light_dir : float3 ℝ)
        ≠ normalize ⟨Real.sqrt, Real.tan, Real.cos, Real.sin, Real.pi⟩ ⟨fin 1, fin 1, fin 1⟩ ∧
      (∃ r : ℝ, dot (normalize ⟨Real.sqrt, Real.tan, Real.cos, Real.sin, Real.pi⟩
          ⟨fin 1, fin 1, fin 1⟩) (traceRay.light_dir : float3 ℝ) = fin r ∧ r < 1) ∧
      (traceRay.light_dir : float3 ℚ)
        = ⟨fin (4840227 / 8388608), fin (4840227 / 8388608), fin (4840227 / 8388608)⟩ ∧
      dot (traceRay.light_dir : float3 ℚ) traceRay.light_dir = fin (8378433 / 8388608) ∧
      dot (traceRay.light_dir : float3 ℚ) traceRay.light_dir ≠ fin 1 := by
  have hc : roundTo 24 0.577 = 4840227 / 8388608 := by
    rw [roundTo_eq 24 0.577 (-1) 9680454 (by norm_num [abs_of_pos]) (by norm_num [abs_of_pos])
      (by norm_num [abs_lt])]
    norm_num
  have h1 : roundTo 24 (4840227 / 8388608 * (4840227 / 8388608)) = 2792811 / 8388608 := by
    rw [roundTo_eq 24 _ (-2) 11171244 (by norm_num [abs_of_pos]) (by norm_num [abs_of_pos])
      (by norm_num [abs_lt])]
    norm_num
  have h2 : roundTo 24 (2792811 / 8388608 + 2792811 / 8388608) = 2792811 / 4194304 := by
    rw [roundTo_eq 24 _ (-1) 11171244 (by norm_num [abs_of_pos]) (by norm_num [abs_of_pos])
      (by norm_num [abs_lt])]
    norm_num
  have h3 : roundTo 24 (2792811 / 4194304 + 2792811 / 8388608) = 8378433 / 8388608 := by
    rw [roundTo_eq 24 _ (-1) 16756866 (by norm_num [abs_of_pos]) (by norm_num [abs_of_pos])
      (by norm_num [abs_lt])]
    norm_num
  have hd : dot (traceRay.light_dir : float3 ℚ) traceRay.light_dir
      = fin (8378433 / 8388608) := by
    simp only [dot, traceRay.light_dir, lit_eq, rnd_rat, hc, mul_fin_fin, add_fin_fin, h1, h2, h3]
  refine ⟨light_dir_real.1, light_dir_real.2.1, light_dir_real.2.2.1, light_dir_real.2.2.2,
    ?_, hd, ?_⟩
  · simp only [traceRay.light_dir, lit_eq, rnd_rat, hc]
  · rw [hd]
    simp only [ne_eq, fin.injEq]
    norm_num

end Binary32

end HelloWorld
